import Mathlib

/-!
# Verification of the ERPNext mock API server

A shallow embedding of `src/erpnext_mock_api.py` (a Flask-based mock of a
subset of the ERPNext REST API) together with proofs of the spec's claims.

Modelling conventions:
* JSON values are the inductive `Json`; Python dicts are association lists
  (`List (String × _)`) preserving insertion order, as Python 3.7+ dicts do.
* Python numbers (ints and floats) are modelled as `ℚ`; the balance
  tolerance `0.01` is the exact rational `1/100`.
* `datetime.now()` is modelled by a `Clock` value attached to each request
  (current year, iso timestamp, date string); a handler call is atomic in
  time.
* The request-level model runs on the in-memory fallback store (the
  `db = None` paths of the source, which is what the server uses when no
  database is reachable); the SQL-backed store variant is modelled
  separately, as a list of rows in primary-key (insertion) order, for the
  backend-equivalence claim.
-/

namespace Erp

/-- JSON values, the payload data model of the mock server. -/
inductive Json where
  | null : Json
  | boolean : Bool → Json
  | str : String → Json
  | num : ℚ → Json
  | arr : List Json → Json
  | obj : List (String × Json) → Json

/-! ## Association lists: the model of Python dicts -/

namespace Al

variable {α : Type}

/-- `d.get(k)`: first binding of `k`, if any. -/
def get : List (String × α) → String → Option α
  | [], _ => none
  | (k', v) :: rest, k => if k' = k then some v else get rest k

/-- `d[k] = v`: replace the binding in place if the key exists, else
append it (Python dict insertion order). -/
def set : List (String × α) → String → α → List (String × α)
  | [], k, v => [(k, v)]
  | (k', v') :: rest, k, v =>
      if k' = k then (k', v) :: rest else (k', v') :: set rest k v

/-- `del d[k]`: remove the binding of `k` (first occurrence). -/
def erase : List (String × α) → String → List (String × α)
  | [], _ => []
  | (k', v') :: rest, k =>
      if k' = k then rest else (k', v') :: erase rest k

/-- `list(d.keys())`, in insertion order. -/
def keys (l : List (String × α)) : List String := l.map Prod.fst

/-- `list(d.values())`, in insertion order. -/
def values (l : List (String × α)) : List α := l.map Prod.snd

@[simp]
theorem keys_nil : keys ([] : List (String × α)) = [] := rfl

@[simp]
theorem keys_cons (a : String) (b : α) (l : List (String × α)) :
    keys ((a, b) :: l) = a :: keys l := rfl

theorem get_set (l : List (String × α)) (k : String) (v : α) (q : String) :
    get (set l k v) q = if k = q then some v else get l q := by
  induction l with
  | nil =>
      by_cases h : k = q <;> simp [set, get, h]
  | cons kv rest ih =>
      obtain ⟨a, b⟩ := kv
      by_cases ha : a = k
      · subst ha
        by_cases hq : a = q <;> simp [set, get, hq]
      · have hstep : set ((a, b) :: rest) k v = (a, b) :: set rest k v := by
          simp [set, ha]
        rw [hstep]
        by_cases hq : a = q
        · have hkq : ¬k = q := fun h => ha (hq ▸ h.symm ▸ rfl)
          simp [get, hq, hkq]
        · simp [get, hq, ih]

theorem keys_set_of_mem (l : List (String × α)) (k : String) (v : α)
    (h : k ∈ keys l) : keys (set l k v) = keys l := by
  induction l with
  | nil => simp at h
  | cons kv rest ih =>
      obtain ⟨a, b⟩ := kv
      by_cases ha : a = k
      · have hstep : set ((a, b) :: rest) k v = (a, v) :: rest := by
          simp [set, ha]
        rw [hstep]; rfl
      · have hstep : set ((a, b) :: rest) k v = (a, b) :: set rest k v := by
          simp [set, ha]
        have h' : k ∈ keys rest := by
          rcases List.mem_cons.mp (by simpa using h) with h1 | h1
          · exact absurd h1.symm ha
          · exact h1
        rw [hstep, keys_cons, keys_cons, ih h']

theorem keys_set_of_not_mem (l : List (String × α)) (k : String) (v : α)
    (h : k ∉ keys l) : keys (set l k v) = keys l ++ [k] := by
  induction l with
  | nil => simp [set, keys]
  | cons kv rest ih =>
      obtain ⟨a, b⟩ := kv
      rw [keys_cons] at h
      have ha : ¬a = k := fun he => h (he ▸ List.mem_cons_self _ _)
      have h' : k ∉ keys rest := fun hm => h (List.mem_cons_of_mem _ hm)
      have hstep : set ((a, b) :: rest) k v = (a, b) :: set rest k v := by
        simp [set, ha]
      rw [hstep, keys_cons, ih h']
      rfl

theorem get_eq_none_iff (l : List (String × α)) (k : String) :
    get l k = none ↔ k ∉ keys l := by
  induction l with
  | nil => simp [get]
  | cons kv rest ih =>
      obtain ⟨a, b⟩ := kv
      by_cases ha : a = k
      · simp [get, ha]
      · have hg : get ((a, b) :: rest) k = get rest k := by simp [get, ha]
        rw [hg, ih, keys_cons, List.mem_cons]
        constructor
        · intro hn h
          rcases h with h | h
          · exact ha h.symm
          · exact hn h
        · intro hn h
          exact hn (Or.inr h)

theorem get_mem_of_eq_some (l : List (String × α)) (k : String) (v : α)
    (h : get l k = some v) : k ∈ keys l := by
  by_contra hn
  rw [← get_eq_none_iff] at hn
  rw [h] at hn
  exact Option.noConfusion hn

theorem get_erase (l : List (String × α)) (hnd : (keys l).Nodup)
    (k q : String) :
    get (erase l k) q = if k = q then none else get l q := by
  induction l with
  | nil => by_cases h : k = q <;> simp [erase, get, h]
  | cons kv rest ih =>
      obtain ⟨a, b⟩ := kv
      rw [keys_cons] at hnd
      have hnd1 : a ∉ keys rest := (List.nodup_cons.mp hnd).1
      have hnd2 : (keys rest).Nodup := (List.nodup_cons.mp hnd).2
      by_cases ha : a = k
      · subst ha
        have hget : get rest a = none := (get_eq_none_iff rest a).mpr hnd1
        by_cases hq : a = q
        · subst hq
          simp [erase, get, hget]
        · simp [erase, get, hq]
      · have hstep : erase ((a, b) :: rest) k = (a, b) :: erase rest k := by
          simp [erase, ha]
        rw [hstep]
        by_cases hq : a = q
        · have hkq : ¬k = q := fun h => ha (hq ▸ h.symm ▸ rfl)
          simp [get, hq, hkq]
        · simp [get, hq, ih hnd2]

theorem keys_erase_sublist (l : List (String × α)) (k : String) :
    (keys (erase l k)).Sublist (keys l) := by
  induction l with
  | nil => simp [erase]
  | cons kv rest ih =>
      obtain ⟨a, b⟩ := kv
      by_cases ha : a = k
      · simp [erase, ha]
      · have hstep : erase ((a, b) :: rest) k = (a, b) :: erase rest k := by
          simp [erase, ha]
        rw [hstep, keys_cons, keys_cons]
        exact ih.cons₂ a

theorem values_set_of_not_mem (l : List (String × α)) (k : String) (v : α)
    (h : k ∉ keys l) : values (set l k v) = values l ++ [v] := by
  induction l with
  | nil => simp [set, values]
  | cons kv rest ih =>
      obtain ⟨a, b⟩ := kv
      rw [keys_cons] at h
      have ha : ¬a = k := fun he => h (he ▸ List.mem_cons_self _ _)
      have h' : k ∉ keys rest := fun hm => h (List.mem_cons_of_mem _ hm)
      have hstep : set ((a, b) :: rest) k v = (a, b) :: set rest k v := by
        simp [set, ha]
      rw [hstep]
      show b :: values (set rest k v) = (b :: values rest) ++ [v]
      rw [ih h']
      rfl

end Al

/-! ## Documents -/

/-- A document / request body: a Python dict from field name to JSON
value, in insertion order. -/
abbrev Doc := List (String × Json)

/-- `d.get(k)` on a document. -/
def docGet (d : Doc) (k : String) : Option Json := Al.get d k

/-- `d.get(k, default)`. -/
def docGetD (d : Doc) (k : String) (v : Json) : Json := (docGet d k).getD v

/-- `d[k] = v`. -/
def docSet (d : Doc) (k : String) (v : Json) : Doc := Al.set d k v

/-- `a.update(b)` on Python dicts: set each binding of `b` in `a`, in
order. -/
def docUpdate (a b : Doc) : Doc :=
  b.foldl (fun acc kv => docSet acc kv.1 kv.2) a

/-- The keys of a document, in order. -/
def docKeys (d : Doc) : List String := Al.keys d

/-- Python truthiness of `d.get(k)`: `None`, missing keys, `''`, `0`,
`[]`, `{}` and `False` are falsy. -/
def truthy (v : Option Json) : Bool :=
  match v with
  | none => false
  | some Json.null => false
  | some (Json.boolean b) => b
  | some (Json.str s) => !(s = "")
  | some (Json.num q) => !(q = 0)
  | some (Json.arr l) => !l.isEmpty
  | some (Json.obj l) => !l.isEmpty

theorem docGet_docSet (d : Doc) (k : String) (v : Json) (q : String) :
    docGet (docSet d k v) q = if k = q then some v else docGet d q :=
  Al.get_set d k v q

/-- A key not mentioned in the update body keeps its old value
(Python `dict.update` frame property). -/
theorem docGet_docUpdate_not_mem (a b : Doc) (k : String)
    (h : k ∉ docKeys b) : docGet (docUpdate a b) k = docGet a k := by
  induction b generalizing a with
  | nil => rfl
  | cons kv rest ih =>
      obtain ⟨k₀, v₀⟩ := kv
      rw [docKeys, Al.keys_cons] at h
      have hk0 : ¬k₀ = k := fun he => h (he ▸ List.mem_cons_self _ _)
      have hrest : k ∉ docKeys rest := fun hm => h (List.mem_cons_of_mem _ hm)
      show docGet (docUpdate (docSet a k₀ v₀) rest) k = docGet a k
      rw [ih _ hrest, docGet_docSet]
      simp [hk0]

/-- A key mentioned in the update body (with no duplicate keys, as in any
parsed JSON object) takes the body's value. -/
theorem docGet_docUpdate_mem (a b : Doc) (k : String)
    (hnd : (docKeys b).Nodup) (h : k ∈ docKeys b) :
    docGet (docUpdate a b) k = docGet b k := by
  induction b generalizing a with
  | nil => simp [docKeys] at h
  | cons kv rest ih =>
      obtain ⟨k₀, v₀⟩ := kv
      rw [docKeys, Al.keys_cons] at hnd h
      have hnd1 : k₀ ∉ Al.keys rest := (List.nodup_cons.mp hnd).1
      have hnd2 : (Al.keys rest).Nodup := (List.nodup_cons.mp hnd).2
      show docGet (docUpdate (docSet a k₀ v₀) rest) k = _
      by_cases hk0 : k₀ = k
      · subst hk0
        rw [docGet_docUpdate_not_mem _ _ _ hnd1, docGet_docSet]
        simp [docGet, Al.get]
      · have h' : k ∈ docKeys rest := by
          rcases List.mem_cons.mp h with h1 | h1
          · exact absurd h1.symm hk0
          · exact h1
        rw [ih _ hnd2 h']
        simp [docGet, Al.get, hk0]

/-! ## Decimal formatting (`str(n)` and `f"{n:05d}"`) -/

/-- The character of a decimal digit. -/
def digitChar (d : Nat) : Char := Char.ofNat (48 + d)

/-- Numeric value of a digit character. -/
def digitVal (c : Char) : Nat := c.toNat - 48

/-- The decimal digits of `n`, most significant first (`str(n)`). -/
def natDigits (n : Nat) : List Char :=
  if h : n < 10 then [digitChar n]
  else natDigits (n / 10) ++ [digitChar (n % 10)]
  decreasing_by
    exact Nat.div_lt_self (by omega) (by omega)

/-- Read a digit string back as a number (big-endian fold). -/
def natValAux (a : Nat) : List Char → Nat
  | [] => a
  | c :: cs => natValAux (10 * a + digitVal c) cs

theorem digitVal_digitChar (d : Nat) (h : d < 10) :
    digitVal (digitChar d) = d := by
  interval_cases d <;> rfl

theorem digitChar_ne_dash (d : Nat) (h : d < 10) : digitChar d ≠ '-' := by
  interval_cases d <;> decide

theorem natValAux_append (a : Nat) (l₁ l₂ : List Char) :
    natValAux a (l₁ ++ l₂) = natValAux (natValAux a l₁) l₂ := by
  induction l₁ generalizing a with
  | nil => rfl
  | cons c cs ih => exact ih (10 * a + digitVal c)

theorem natValAux_natDigits (n : Nat) :
    ∀ a : Nat, natValAux a (natDigits n) = a * 10 ^ (natDigits n).length + n := by
  induction n using Nat.strong_induction_on with
  | _ n ih =>
      intro a
      by_cases h : n < 10
      · rw [natDigits.eq_def]
        simp only [h, dite_true]
        show 10 * a + digitVal (digitChar n) = _
        rw [digitVal_digitChar n h]
        simp only [List.length_singleton, pow_one]
        ring
      · rw [natDigits.eq_def]
        simp only [h, dite_false]
        rw [natValAux_append,
          ih (n / 10) (Nat.div_lt_self (by omega) (by omega)) a]
        have hm : n % 10 < 10 := Nat.mod_lt _ (by omega)
        show 10 * (a * 10 ^ (natDigits (n / 10)).length + n / 10) +
            digitVal (digitChar (n % 10)) = _
        rw [digitVal_digitChar _ hm]
        simp only [List.length_append, List.length_singleton, pow_succ]
        have := Nat.div_add_mod n 10
        ring_nf
        omega

theorem natValAux_zero_natDigits (n : Nat) : natValAux 0 (natDigits n) = n := by
  simpa using natValAux_natDigits n 0

/-- Left-pad a digit string with `'0'` to width `w` (`f"{n:0wd}"`). -/
def padZeros (w : Nat) (l : List Char) : List Char :=
  List.replicate (w - l.length) '0' ++ l

theorem natValAux_replicate_zero (m : Nat) :
    natValAux 0 (List.replicate m '0') = 0 := by
  induction m with
  | zero => rfl
  | succ m ih =>
      show natValAux (10 * 0 + digitVal '0') (List.replicate m '0') = 0
      simpa [digitVal] using ih

theorem natValAux_padZeros (w n : Nat) :
    natValAux 0 (padZeros w (natDigits n)) = n := by
  rw [padZeros, natValAux_append, natValAux_replicate_zero,
    natValAux_zero_natDigits]

theorem padZeros_natDigits_injective (w : Nat) {m n : Nat}
    (h : padZeros w (natDigits m) = padZeros w (natDigits n)) : m = n := by
  have := congrArg (natValAux 0) h
  rwa [natValAux_padZeros, natValAux_padZeros] at this

theorem mem_natDigits_ne_dash (n : Nat) :
    ∀ c ∈ natDigits n, c ≠ '-' := by
  induction n using Nat.strong_induction_on with
  | _ n ih =>
      intro c hc
      by_cases h : n < 10
      · rw [natDigits.eq_def] at hc
        simp [h] at hc
        exact hc ▸ digitChar_ne_dash n h
      · rw [natDigits.eq_def] at hc
        simp only [h, dite_false, List.mem_append] at hc
        rcases hc with hc | hc
        · exact ih (n / 10) (Nat.div_lt_self (by omega) (by omega)) c hc
        · have hm : n % 10 < 10 := Nat.mod_lt _ (by omega)
          simp at hc
          exact hc ▸ digitChar_ne_dash _ hm

theorem mem_padZeros_natDigits_ne_dash (w n : Nat) :
    ∀ c ∈ padZeros w (natDigits n), c ≠ '-' := by
  intro c hc
  rw [padZeros, List.mem_append] at hc
  rcases hc with hc | hc
  · rw [List.mem_replicate] at hc
    rw [hc.2]; decide
  · exact mem_natDigits_ne_dash n c hc

/-- If two dash-separated strings agree and neither left part contains a
dash, the parts agree. -/
theorem append_dash_inj (a : List Char) :
    ∀ (c b d : List Char), (∀ x ∈ a, x ≠ '-') → (∀ x ∈ c, x ≠ '-') →
      a ++ '-' :: b = c ++ '-' :: d → a = c ∧ b = d := by
  induction a with
  | nil =>
      intro c b d _ hc h
      cases c with
      | nil => simpa using h
      | cons y c' =>
          simp at h
          exact absurd h.1.symm (hc y (List.mem_cons_self _ _))
  | cons x a' ih =>
      intro c b d ha hc h
      cases c with
      | nil =>
          simp at h
          exact absurd h.1 (ha x (List.mem_cons_self _ _))
      | cons y c' =>
          simp at h
          obtain ⟨hxy, hrest⟩ := h
          have := ih c' b d (fun z hz => ha z (List.mem_cons_of_mem _ hz))
            (fun z hz => hc z (List.mem_cons_of_mem _ hz)) hrest
          exact ⟨by rw [hxy, this.1], this.2⟩

/-! ## Document name generation -/

/-- `str(n)` as a Lean string. -/
def natToString (n : Nat) : String := String.mk (natDigits n)

/-- `f"{n:05d}"` as a Lean string. -/
def fmt05 (n : Nat) : String := String.mk (padZeros 5 (natDigits n))

/-- The naming template of `generate_doc_name`: format a counter value
into the type-specific document name (`datetime.now().year` is the
request clock's year). -/
def formatDocName (doctype : String) (year : Nat) (counter : Nat) :
    String :=
  if doctype = "Customer" then
    "CUST-" ++ fmt05 counter
  else if doctype = "Journal Entry" then
    "ACC-JV-" ++ natToString year ++ "-" ++ fmt05 counter
  else if doctype = "Purchase Invoice" then
    "ACC-PINV-" ++ natToString year ++ "-" ++ fmt05 counter
  else if doctype = "Payment Entry" then
    "ACC-PAY-" ++ natToString year ++ "-" ++ fmt05 counter
  else
    doctype ++ "-" ++ natToString counter

/-- The four doctypes the mock server supports. -/
def supportedDoctypes : List String :=
  ["Customer", "Journal Entry", "Purchase Invoice", "Payment Entry"]

theorem tagged_name_inj (tag : String) {y₁ c₁ y₂ c₂ : Nat}
    (h : tag ++ natToString y₁ ++ "-" ++ fmt05 c₁ =
         tag ++ natToString y₂ ++ "-" ++ fmt05 c₂) : c₁ = c₂ := by
  have hd := congrArg String.data h
  simp only [String.data_append] at hd
  have hd' : natDigits y₁ ++ '-' :: padZeros 5 (natDigits c₁) =
      natDigits y₂ ++ '-' :: padZeros 5 (natDigits c₂) := by
    have h1 : tag.data ++ (natDigits y₁ ++ '-' :: padZeros 5 (natDigits c₁)) =
        tag.data ++ (natDigits y₂ ++ '-' :: padZeros 5 (natDigits c₂)) := by
      simpa [natToString, fmt05, List.append_assoc] using hd
    exact List.append_cancel_left h1
  have := append_dash_inj (natDigits y₁) (natDigits y₂)
    (padZeros 5 (natDigits c₁)) (padZeros 5 (natDigits c₂))
    (mem_natDigits_ne_dash y₁) (mem_natDigits_ne_dash y₂) hd'
  exact padZeros_natDigits_injective 5 this.2

/-- For a supported doctype, generated names with distinct counter values
are distinct (whatever the years on the two calls were). -/
theorem formatDocName_counter_inj (doctype : String)
    (hs : doctype ∈ supportedDoctypes) {y₁ c₁ y₂ c₂ : Nat}
    (h : formatDocName doctype y₁ c₁ = formatDocName doctype y₂ c₂) :
    c₁ = c₂ := by
  fin_cases hs
  · simp only [formatDocName, if_pos rfl] at h
    have hd := congrArg String.data h
    simp only [String.data_append] at hd
    exact padZeros_natDigits_injective 5 (List.append_cancel_left hd)
  · simp only [formatDocName, reduceIte] at h
    exact tagged_name_inj "ACC-JV-" h
  · simp only [formatDocName, reduceIte] at h
    exact tagged_name_inj "ACC-PINV-" h
  · simp only [formatDocName, reduceIte] at h
    exact tagged_name_inj "ACC-PAY-" h

/-! ## In-memory server state (`documents_memory`, `counters_memory`) -/

/-- The mutable state of the in-memory variant of the server. -/
structure MemState where
  documents : List (String × List (String × Doc))
  counters : List (String × Nat)

/-- The state at process start: four empty per-doctype stores and all
counters at 1. -/
def initState : MemState :=
  { documents := [("Customer", []), ("Journal Entry", []),
      ("Purchase Invoice", []), ("Payment Entry", [])]
    counters := [("Customer", 1), ("Journal Entry", 1),
      ("Purchase Invoice", 1), ("Payment Entry", 1)] }

/-- `documents_memory.get(doctype, {})`. -/
def storeOf (s : MemState) (doctype : String) : List (String × Doc) :=
  (Al.get s.documents doctype).getD []

/-- `counters_memory.get(doctype, 1)`. -/
def counterOf (s : MemState) (doctype : String) : Nat :=
  (Al.get s.counters doctype).getD 1

/-- `get_next_counter` (memory path): return the current counter for the
doctype and store back `current + 1`. -/
def get_next_counter (doctype : String) (s : MemState) : Nat × MemState :=
  let current := counterOf s doctype
  (current, { s with counters := Al.set s.counters doctype (current + 1) })

/-- A request clock: the pieces of `datetime.now()` the handlers read. -/
structure Clock where
  year : Nat
  nowIso : String
  today : String

/-- `generate_doc_name`: draw the next counter value and format it with
the doctype's naming template. -/
def generate_doc_name (doctype : String) (cl : Clock) (s : MemState) :
    String × MemState :=
  let r := get_next_counter doctype s
  (formatDocName doctype cl.year r.1, r.2)

/-- `save_document` (memory path): upsert the document under its name in
the doctype's store. -/
def save_document (doctype docName : String) (docData : Doc)
    (s : MemState) : MemState :=
  { s with documents :=
      Al.set s.documents doctype (Al.set (storeOf s doctype) docName docData) }

/-- `get_document` (memory path):
`documents_memory.get(doctype, {}).get(doc_name)`. -/
def get_document (doctype docName : String) (s : MemState) : Option Doc :=
  Al.get (storeOf s doctype) docName

/-- `list_documents` (memory path): the values of the doctype's store in
insertion order, sliced `[limit_start : limit_start + limit_page_length]`. -/
def list_documents (doctype : String) (limit_start limit_page_length : Nat)
    (s : MemState) : List Doc :=
  ((Al.values (storeOf s doctype)).drop limit_start).take limit_page_length

/-- `delete_document` (memory path): remove the binding and report whether
it was present. -/
def delete_document (doctype docName : String) (s : MemState) :
    Bool × MemState :=
  match Al.get s.documents doctype with
  | none => (false, s)
  | some store =>
      if docName ∈ Al.keys store then
        (true,
          { s with
              documents :=
                Al.set s.documents doctype (Al.erase store docName) })
      else (false, s)

/-! ## Authentication -/

/-- The static key/secret table. -/
def VALID_API_KEYS : List (String × String) :=
  [("test_api_key", "test_api_secret"), ("demo_key", "demo_secret")]

/-- Python `s.split(':')` on a character list. -/
def splitColon : List Char → List (List Char)
  | [] => [[]]
  | c :: rest =>
      let r := splitColon rest
      if c = ':' then [] :: r
      else
        match r with
        | [] => [[c]]
        | h :: t => (c :: h) :: t

/-- `authenticate`: the header must start with `"token "`; the rest must
split on `':'` into exactly a key and a secret (any other number of parts
raises in the `try` and fails closed); the key must be in the table with
exactly that secret. -/
def authenticate (authHeader : String) : Bool :=
  if authHeader.data.take 6 = "token ".data then
    match splitColon (authHeader.data.drop 6) with
    | [k, sec] =>
        decide (Al.get VALID_API_KEYS (String.mk k) = some (String.mk sec))
    | _ => false
  else false

/-! ## Responses and handlers -/

/-- The body of a JSON response. -/
inductive RespBody where
  | data : Doc → RespBody
  | dataList : List Doc → RespBody
  | err : String → String → RespBody
  | message : String → RespBody

/-- An HTTP response: status code and JSON body.  `err exc excType`
stands for `{"exc": exc, "exc_type": excType}`. -/
structure Response where
  status : Nat
  body : RespBody

/-- The 401 response every protected handler returns when
`authenticate()` fails. -/
def authFailedResp : Response :=
  ⟨401, RespBody.err "Authentication failed" "AuthenticationError"⟩

/-- The 404 response for a missing document. -/
def notFoundResp (doctype docName : String) : Response :=
  ⟨404, RespBody.err (doctype ++ " " ++ docName ++ " not found")
    "DoesNotExistError"⟩

/-- A 400 validation-error response. -/
def validationResp (msg : String) : Response :=
  ⟨400, RespBody.err msg "ValidationError"⟩

/-- `GET /api/method/frappe.auth.get_logged_user`. -/
def get_logged_user (authHeader : String) (s : MemState) :
    Response × MemState :=
  if !authenticate authHeader then (authFailedResp, s)
  else (⟨200, RespBody.message "Administrator"⟩, s)

/-- `GET /api/resource/{doctype}`: paginated list. -/
def get_resources (authHeader doctype : String)
    (limit_start limit_page_length : Nat) (s : MemState) :
    Response × MemState :=
  if !authenticate authHeader then (authFailedResp, s)
  else
    (⟨200, RespBody.dataList
      (list_documents doctype limit_start limit_page_length s)⟩, s)

/-- `GET /api/resource/{doctype}/{name}`.  An empty stored dict is falsy
in Python, so `if not doc` also sends it to the 404 branch. -/
def get_resource (authHeader doctype docName : String) (s : MemState) :
    Response × MemState :=
  if !authenticate authHeader then (authFailedResp, s)
  else
    match get_document doctype docName s with
    | none => (notFoundResp doctype docName, s)
    | some doc =>
        if doc.isEmpty then (notFoundResp doctype docName, s)
        else (⟨200, RespBody.data doc⟩, s)

/-- Length of a JSON value under Python `len`.  (On values with no
`len`, Python raises; such requests are outside this model and never
reached by the claims, which constrain the field to be a JSON array.) -/
def jsonLen : Json → Nat
  | Json.arr l => l.length
  | Json.obj l => l.length
  | Json.str st => st.length
  | _ => 0

/-- `acc.get(field, 0)` read as a number.  (A present non-numeric value
would make Python's `sum` raise; such requests are outside this model.) -/
def accAmount (field : String) (acc : Json) : ℚ :=
  match acc with
  | Json.obj kvs =>
      match Al.get kvs field with
      | some (Json.num q) => q
      | _ => 0
  | _ => 0

/-- `sum(acc.get(field, 0) for acc in accounts)`. -/
def sumAmounts (field : String) (accounts : Json) : ℚ :=
  match accounts with
  | Json.arr l => (l.map (accAmount field)).sum
  | _ => 0

/-- The balance-violation message, quoting both computed totals. -/
def balanceMsg (totalDebit totalCredit : ℚ) : String :=
  "Debit (" ++ toString totalDebit ++ ") must equal Credit ("
    ++ toString totalCredit ++ ")"

/-- The customer record built by `create_customer`. -/
def customerDoc (cl : Clock) (data : Doc) (docName : String) : Doc :=
  [("name", Json.str docName),
   ("doctype", Json.str "Customer"),
   ("customer_name", docGetD data "customer_name" Json.null),
   ("customer_type", docGetD data "customer_type" (Json.str "Company")),
   ("customer_group",
     docGetD data "customer_group" (Json.str "All Customer Groups")),
   ("territory", docGetD data "territory" (Json.str "All Territories")),
   ("email_id", docGetD data "email_id" Json.null),
   ("mobile_no", docGetD data "mobile_no" Json.null),
   ("creation", Json.str cl.nowIso),
   ("modified", Json.str cl.nowIso),
   ("owner", Json.str "Administrator"),
   ("docstatus", Json.num 0)]

/-- `POST /api/resource/Customer`. -/
def create_customer (authHeader : String) (cl : Clock) (data : Doc)
    (s : MemState) : Response × MemState :=
  if !authenticate authHeader then (authFailedResp, s)
  else if !truthy (docGet data "customer_name") then
    (validationResp "Mandatory field customer_name missing", s)
  else
    let r := generate_doc_name "Customer" cl s
    let customer := customerDoc cl data r.1
    (⟨201, RespBody.data customer⟩,
      save_document "Customer" r.1 customer r.2)

/-- The journal-entry record built by `create_journal_entry`. -/
def journalEntryDoc (cl : Clock) (data : Doc) (docName : String)
    (totalDebit totalCredit : ℚ) : Doc :=
  [("name", Json.str docName),
   ("doctype", Json.str "Journal Entry"),
   ("company", docGetD data "company" Json.null),
   ("posting_date", docGetD data "posting_date" (Json.str cl.today)),
   ("voucher_type", docGetD data "voucher_type" (Json.str "Journal Entry")),
   ("accounts", docGetD data "accounts" Json.null),
   ("user_remark", docGetD data "user_remark" (Json.str "")),
   ("reference_number", docGetD data "reference_number" (Json.str "")),
   ("total_debit", Json.num totalDebit),
   ("total_credit", Json.num totalCredit),
   ("difference", Json.num 0),
   ("creation", Json.str cl.nowIso),
   ("modified", Json.str cl.nowIso),
   ("owner", Json.str "Administrator"),
   ("docstatus", Json.num 0)]

/-- `POST /api/resource/Journal Entry`. -/
def create_journal_entry (authHeader : String) (cl : Clock) (data : Doc)
    (s : MemState) : Response × MemState :=
  if !authenticate authHeader then (authFailedResp, s)
  else if !truthy (docGet data "company") then
    (validationResp "Mandatory field company missing", s)
  else if !truthy (docGet data "accounts")
      || jsonLen (docGetD data "accounts" Json.null) < 2 then
    (validationResp "At least 2 accounts required for a Journal Entry", s)
  else
    let accounts := docGetD data "accounts" Json.null
    let totalDebit := sumAmounts "debit_in_account_currency" accounts
    let totalCredit := sumAmounts "credit_in_account_currency" accounts
    if |totalDebit - totalCredit| > 1 / 100 then
      (validationResp (balanceMsg totalDebit totalCredit), s)
    else
      let r := generate_doc_name "Journal Entry" cl s
      let journalEntry := journalEntryDoc cl data r.1 totalDebit totalCredit
      (⟨201, RespBody.data journalEntry⟩,
        save_document "Journal Entry" r.1 journalEntry r.2)

/-- The purchase-invoice record built by `create_purchase_invoice`. -/
def purchaseInvoiceDoc (cl : Clock) (data : Doc) (docName : String)
    (total : ℚ) : Doc :=
  [("name", Json.str docName),
   ("doctype", Json.str "Purchase Invoice"),
   ("supplier", docGetD data "supplier" Json.null),
   ("company", docGetD data "company" Json.null),
   ("posting_date", docGetD data "posting_date" (Json.str cl.today)),
   ("items", docGetD data "items" Json.null),
   ("total", Json.num total),
   ("grand_total", Json.num total),
   ("outstanding_amount", Json.num total),
   ("status", Json.str "Draft"),
   ("creation", Json.str cl.nowIso),
   ("modified", Json.str cl.nowIso),
   ("owner", Json.str "Administrator"),
   ("docstatus", Json.num 0)]

/-- `POST /api/resource/Purchase Invoice`. -/
def create_purchase_invoice (authHeader : String) (cl : Clock) (data : Doc)
    (s : MemState) : Response × MemState :=
  if !authenticate authHeader then (authFailedResp, s)
  else if !truthy (docGet data "supplier") then
    (validationResp "Mandatory field supplier missing", s)
  else if !truthy (docGet data "items")
      || jsonLen (docGetD data "items" Json.null) = 0 then
    (validationResp "At least 1 item required for Purchase Invoice", s)
  else
    let r := generate_doc_name "Purchase Invoice" cl s
    let total := sumAmounts "amount" (docGetD data "items" Json.null)
    let purchaseInvoice := purchaseInvoiceDoc cl data r.1 total
    (⟨201, RespBody.data purchaseInvoice⟩,
      save_document "Purchase Invoice" r.1 purchaseInvoice r.2)

/-- The payment-entry record built by `create_payment_entry`. -/
def paymentEntryDoc (cl : Clock) (data : Doc) (docName : String) : Doc :=
  [("name", Json.str docName),
   ("doctype", Json.str "Payment Entry"),
   ("payment_type", docGetD data "payment_type" Json.null),
   ("party_type", docGetD data "party_type" Json.null),
   ("party", docGetD data "party" Json.null),
   ("company", docGetD data "company" Json.null),
   ("posting_date", docGetD data "posting_date" (Json.str cl.today)),
   ("paid_amount", docGetD data "paid_amount" (Json.num 0)),
   ("received_amount", docGetD data "received_amount" (Json.num 0)),
   ("paid_from", docGetD data "paid_from" (Json.str "")),
   ("paid_to", docGetD data "paid_to" (Json.str "")),
   ("reference_no", docGetD data "reference_no" (Json.str "")),
   ("reference_date", docGetD data "reference_date" (Json.str cl.today)),
   ("status", Json.str "Draft"),
   ("creation", Json.str cl.nowIso),
   ("modified", Json.str cl.nowIso),
   ("owner", Json.str "Administrator"),
   ("docstatus", Json.num 0)]

/-- `POST /api/resource/Payment Entry`. -/
def create_payment_entry (authHeader : String) (cl : Clock) (data : Doc)
    (s : MemState) : Response × MemState :=
  if !authenticate authHeader then (authFailedResp, s)
  else if !truthy (docGet data "payment_type") then
    (validationResp "Mandatory field payment_type missing", s)
  else if !truthy (docGet data "party_type") || !truthy (docGet data "party")
      then
    (validationResp "Mandatory fields party_type and party missing", s)
  else
    let r := generate_doc_name "Payment Entry" cl s
    let paymentEntry := paymentEntryDoc cl data r.1
    (⟨201, RespBody.data paymentEntry⟩,
      save_document "Payment Entry" r.1 paymentEntry r.2)

/-- `PUT /api/resource/{doctype}/{name}`: merge the request body into the
stored document, refresh `modified`, save.  No validation is re-run. -/
def update_resource (authHeader doctype docName : String) (cl : Clock)
    (body : Doc) (s : MemState) : Response × MemState :=
  if !authenticate authHeader then (authFailedResp, s)
  else
    match get_document doctype docName s with
    | none => (notFoundResp doctype docName, s)
    | some doc =>
        if doc.isEmpty then (notFoundResp doctype docName, s)
        else
          let doc' := docSet (docUpdate doc body) "modified"
            (Json.str cl.nowIso)
          (⟨200, RespBody.data doc'⟩, save_document doctype docName doc' s)

/-- `DELETE /api/resource/{doctype}/{name}`. -/
def delete_resource (authHeader doctype docName : String) (s : MemState) :
    Response × MemState :=
  if !authenticate authHeader then (authFailedResp, s)
  else
    let r := delete_document doctype docName s
    if r.1 then (⟨200, RespBody.message "ok"⟩, r.2)
    else (notFoundResp doctype docName, r.2)

/-! ## The request model -/

/-- One HTTP request to the mock server's protected endpoints. -/
inductive Request where
  | loggedUser : Request
  | listRes : String → Nat → Nat → Request
  | getRes : String → String → Request
  | createRes : String → Doc → Request
  | updateRes : String → String → Doc → Request
  | deleteRes : String → String → Request

/-- Routing: POST exists only for the four supported doctypes; a POST to
any other `/api/resource/{doctype}` hits the GET-only list rule and Flask
answers 405 before any handler (and hence before `authenticate`) runs. -/
def stepRequest (authHeader : String) (cl : Clock) (req : Request)
    (s : MemState) : Response × MemState :=
  match req with
  | Request.loggedUser => get_logged_user authHeader s
  | Request.listRes d st len => get_resources authHeader d st len s
  | Request.getRes d n => get_resource authHeader d n s
  | Request.createRes d body =>
      if d = "Customer" then create_customer authHeader cl body s
      else if d = "Journal Entry" then
        create_journal_entry authHeader cl body s
      else if d = "Purchase Invoice" then
        create_purchase_invoice authHeader cl body s
      else if d = "Payment Entry" then
        create_payment_entry authHeader cl body s
      else (⟨405, RespBody.err "Method Not Allowed" "MethodNotAllowed"⟩, s)
  | Request.updateRes d n body => update_resource authHeader d n cl body s
  | Request.deleteRes d n => delete_resource authHeader d n s

/-- A dated request: the credentials it carries and the wall clock at the
moment it is served. -/
structure Call where
  authHeader : String
  clock : Clock
  req : Request

/-- Serve a sequence of requests, collecting each call with its
response. -/
def runRequests : List Call → MemState → List (Call × Response) × MemState
  | [], s => ([], s)
  | c :: rest, s =>
      let r := stepRequest c.authHeader c.clock c.req s
      let rr := runRequests rest r.2
      ((c, r.1) :: rr.1, rr.2)

/-! ## The SQL-backed store variant

The `erpnext_documents` table, modelled as its rows in primary-key
(autoincrement-id) order; `data` is kept as the parsed document
(`json.loads(row.data)`).  The query in `list_documents` carries no
`ORDER BY`, so the model adopts the id order the table is populated in. -/

/-- One row of `erpnext_documents`. -/
structure SqlRow where
  doctype : String
  name : String
  dataJson : Doc
  docstatus : Json
  owner : Json

/-- `save_document` (database path): look the row up by `name` alone
(the column is globally unique); update `data`/`docstatus` in place if
found — `doctype` is left as it was — else insert a new row at the end. -/
def sqlSave (doctype docName : String) (docData : Doc) :
    List SqlRow → List SqlRow
  | [] =>
      [⟨doctype, docName, docData,
        docGetD docData "docstatus" (Json.num 0),
        docGetD docData "owner" (Json.str "Administrator")⟩]
  | row :: rest =>
      if row.name = docName then
        { row with
            dataJson := docData
            docstatus := docGetD docData "docstatus" (Json.num 0) } :: rest
      else row :: sqlSave doctype docName docData rest

/-- `get_document` (database path): first row with this doctype and
name. -/
def sqlGet (doctype docName : String) : List SqlRow → Option Doc
  | [] => none
  | row :: rest =>
      if row.doctype = doctype ∧ row.name = docName then some row.dataJson
      else sqlGet doctype docName rest

/-- `list_documents` (database path): filter by doctype, offset, limit,
parse each row's data blob. -/
def sqlList (doctype : String) (limit_start limit_page_length : Nat)
    (rows : List SqlRow) : List Doc :=
  ((((rows.filter (fun r => r.doctype = doctype)).drop limit_start).take
    limit_page_length).map (fun r => r.dataJson))

/-- `delete_document` (database path): remove the first row with this
doctype and name, reporting whether one existed. -/
def sqlDelete (doctype docName : String) :
    List SqlRow → Bool × List SqlRow
  | [] => (false, [])
  | row :: rest =>
      if row.doctype = doctype ∧ row.name = docName then (true, rest)
      else
        let r := sqlDelete doctype docName rest
        (r.1, row :: r.2)

/-! ## The store contract and its two implementations -/

/-- One operation of the document-store contract. -/
inductive StoreOp where
  | save : String → String → Doc → StoreOp
  | getOp : String → String → StoreOp
  | listOp : String → Nat → Nat → StoreOp
  | deleteOp : String → String → StoreOp

/-- The externally observable result of one store operation. -/
inductive StoreObs where
  | saved : StoreObs
  | got : Option Doc → StoreObs
  | listed : List Doc → StoreObs
  | deleted : Bool → StoreObs

/-- Run one store operation against the in-memory backend. -/
def memStep (s : MemState) : StoreOp → StoreObs × MemState
  | StoreOp.save d n doc => (StoreObs.saved, save_document d n doc s)
  | StoreOp.getOp d n => (StoreObs.got (get_document d n s), s)
  | StoreOp.listOp d st len =>
      (StoreObs.listed (list_documents d st len s), s)
  | StoreOp.deleteOp d n =>
      let r := delete_document d n s
      (StoreObs.deleted r.1, r.2)

/-- Run a sequence of store operations against the in-memory backend. -/
def memRun : List StoreOp → MemState → List StoreObs × MemState
  | [], s => ([], s)
  | op :: rest, s =>
      let r := memStep s op
      let rr := memRun rest r.2
      (r.1 :: rr.1, rr.2)

/-- Run one store operation against the SQL backend. -/
def sqlStep (rows : List SqlRow) : StoreOp → StoreObs × List SqlRow
  | StoreOp.save d n doc => (StoreObs.saved, sqlSave d n doc rows)
  | StoreOp.getOp d n => (StoreObs.got (sqlGet d n rows), rows)
  | StoreOp.listOp d st len => (StoreObs.listed (sqlList d st len rows), rows)
  | StoreOp.deleteOp d n =>
      let r := sqlDelete d n rows
      (StoreObs.deleted r.1, r.2)

/-- Run a sequence of store operations against the SQL backend. -/
def sqlRun : List StoreOp → List SqlRow → List StoreObs × List SqlRow
  | [], rows => ([], rows)
  | op :: rest, rows =>
      let r := sqlStep rows op
      let rr := sqlRun rest r.2
      (r.1 :: rr.1, rr.2)

/-- The observation trace of the in-memory backend from its initial
state. -/
def memTrace (ops : List StoreOp) : List StoreObs :=
  (memRun ops initState).1

/-- The observation trace of the SQL backend from its initial (empty)
table. -/
def sqlTrace (ops : List StoreOp) : List StoreObs :=
  (sqlRun ops []).1

/-- The (doctype, name) pair of every save operation in a sequence. -/
def savePairs : List StoreOp → List (String × String)
  | [] => []
  | StoreOp.save d n _ :: rest => (d, n) :: savePairs rest
  | _ :: rest => savePairs rest

/-- Each name is saved under a single doctype. -/
def PairsFunctional (P : List (String × String)) : Prop :=
  ∀ p ∈ P, ∀ q ∈ P, p.2 = q.2 → p.1 = q.1

/-- The name/data projection of one table row. -/
def rowEntry (r : SqlRow) : String × Doc := (r.name, r.dataJson)

/-- The rows of one doctype projected to a name→data association list,
in table order. -/
def sqlProj (d : String) (rows : List SqlRow) : List (String × Doc) :=
  (rows.filter (fun r => r.doctype = d)).map rowEntry

/-- The refinement relation between the two backends: per doctype, the
in-memory store equals the name/data projection of the table rows of
that doctype, in order. -/
def StoreRel (s : MemState) (rows : List SqlRow) : Prop :=
  ∀ d, storeOf s d = sqlProj d rows

/-- Every row's (doctype, name) pair appears in `P`. -/
def RowsTracked (rows : List SqlRow) (P : List (String × String)) : Prop :=
  ∀ r ∈ rows, (r.doctype, r.name) ∈ P

/-! ## Refinement lemmas between the two store backends -/

theorem erase_of_not_mem {α : Type} (l : List (String × α)) (k : String)
    (h : k ∉ Al.keys l) : Al.erase l k = l := by
  induction l with
  | nil => rfl
  | cons kv rest ih =>
      obtain ⟨a, b⟩ := kv
      rw [Al.keys_cons] at h
      have ha : ¬a = k := fun he => h (he ▸ List.mem_cons_self _ _)
      have h' : k ∉ Al.keys rest := fun hm => h (List.mem_cons_of_mem _ hm)
      simp [Al.erase, ha, ih h']

theorem storeOf_initState (d : String) : storeOf initState d = [] := by
  unfold storeOf initState
  simp only [Al.get]
  split_ifs <;> rfl

theorem counterOf_initState (d : String) : counterOf initState d = 1 := by
  unfold counterOf initState
  simp only [Al.get]
  split_ifs <;> rfl

theorem storeOf_save_document (d n : String) (doc : Doc) (s : MemState)
    (d' : String) :
    storeOf (save_document d n doc s) d' =
      if d = d' then Al.set (storeOf s d) n doc else storeOf s d' := by
  unfold save_document storeOf
  simp only [Al.get_set]
  by_cases hd : d = d' <;> simp [hd]

theorem counterOf_save_document (d n : String) (doc : Doc) (s : MemState)
    (d' : String) :
    counterOf (save_document d n doc s) d' = counterOf s d' := rfl

theorem delete_document_spec (d n : String) (s : MemState) :
    (delete_document d n s).1 = decide (n ∈ Al.keys (storeOf s d)) ∧
    ∀ d', storeOf (delete_document d n s).2 d' =
      if d = d' then Al.erase (storeOf s d) n else storeOf s d' := by
  cases hget : Al.get s.documents d with
  | none =>
      have hstore : storeOf s d = [] := by unfold storeOf; rw [hget]; rfl
      have hres : delete_document d n s = (false, s) := by
        unfold delete_document; rw [hget]
      rw [hres]
      refine ⟨by simp [hstore, Al.keys], ?_⟩
      intro d'
      by_cases hd : d = d'
      · subst hd; rw [if_pos rfl, hstore]; rfl
      · rw [if_neg hd]
  | some store =>
      have hstore : storeOf s d = store := by unfold storeOf; rw [hget]; rfl
      by_cases hmem : n ∈ Al.keys store
      · have hres : delete_document d n s =
            (true,
              { s with
                  documents := Al.set s.documents d (Al.erase store n) }) := by
          unfold delete_document; rw [hget]; simp [hmem]
        rw [hres]
        refine ⟨by simp [hstore, hmem], ?_⟩
        intro d'
        by_cases hd : d = d'
        · subst hd
          show (Al.get (Al.set s.documents d (Al.erase store n)) d).getD [] = _
          rw [Al.get_set, if_pos rfl, if_pos rfl, hstore]
          rfl
        · rw [if_neg hd]
          show (Al.get (Al.set s.documents d (Al.erase store n)) d').getD [] = _
          rw [Al.get_set, if_neg hd]
          rfl
      · have hres : delete_document d n s = (false, s) := by
          unfold delete_document; rw [hget]; simp [hmem]
        rw [hres]
        refine ⟨by simp [hstore, hmem], ?_⟩
        intro d'
        by_cases hd : d = d'
        · subst hd
          rw [if_pos rfl, hstore, erase_of_not_mem _ _ hmem]
        · rw [if_neg hd]

theorem counterOf_delete_document (d n : String) (s : MemState)
    (d' : String) :
    counterOf (delete_document d n s).2 d' = counterOf s d' := by
  unfold delete_document
  cases hget : Al.get s.documents d with
  | none => rfl
  | some store =>
      by_cases hmem : n ∈ Al.keys store <;> simp [hmem] <;> rfl

theorem sqlGet_proj (d n : String) (rows : List SqlRow) :
    Al.get (sqlProj d rows) n = sqlGet d n rows := by
  induction rows with
  | nil => rfl
  | cons row rest ih =>
      by_cases hrd : row.doctype = d
      · have hfil : sqlProj d (row :: rest) = rowEntry row :: sqlProj d rest := by
          simp [sqlProj, List.filter_cons, hrd]
        rw [hfil]
        by_cases hrn : row.name = n
        · simp [Al.get, rowEntry, hrn, sqlGet, hrd]
        · simp [Al.get, rowEntry, hrn, sqlGet, hrd, ih]
      · have hfil : sqlProj d (row :: rest) = sqlProj d rest := by
          simp [sqlProj, List.filter_cons, hrd]
        rw [hfil, ih]
        simp [sqlGet, hrd]

theorem sqlList_proj (d : String) (st len : Nat) (rows : List SqlRow) :
    sqlList d st len rows = ((Al.values (sqlProj d rows)).drop st).take len := by
  unfold sqlList sqlProj Al.values
  rw [List.map_map]
  have : (Prod.snd ∘ rowEntry) = fun r : SqlRow => r.dataJson := rfl
  rw [this, List.map_take, List.map_drop]

theorem sqlSave_proj (d n : String) (doc : Doc) (rows : List SqlRow)
    (hno : ∀ r ∈ rows, r.name = n → r.doctype = d) (d' : String) :
    sqlProj d' (sqlSave d n doc rows) =
      if d = d' then Al.set (sqlProj d rows) n doc else sqlProj d' rows := by
  induction rows with
  | nil =>
      by_cases hd : d = d' <;>
        simp [sqlSave, sqlProj, rowEntry, hd, Al.set, List.filter_cons]
  | cons row rest ih =>
      have ihrest := ih (fun r hr hn => hno r (List.mem_cons_of_mem _ hr) hn)
      by_cases hrn : row.name = n
      · have hrd : row.doctype = d := hno row (List.mem_cons_self _ _) hrn
        have hstep : sqlSave d n doc (row :: rest) =
            { row with
                dataJson := doc
                docstatus := docGetD doc "docstatus" (Json.num 0) } :: rest := by
          simp [sqlSave, hrn]
        rw [hstep]
        by_cases hd : d = d'
        · subst hd
          have h1 : sqlProj d
              ({ row with
                  dataJson := doc
                  docstatus := docGetD doc "docstatus" (Json.num 0) } :: rest) =
              (row.name, doc) :: sqlProj d rest := by
            simp [sqlProj, List.filter_cons, hrd, rowEntry]
          have h2 : sqlProj d (row :: rest) =
              (row.name, row.dataJson) :: sqlProj d rest := by
            simp [sqlProj, List.filter_cons, hrd, rowEntry]
          rw [h1, if_pos rfl, h2]
          simp [Al.set, hrn]
        · have hne : ¬row.doctype = d' := fun he => hd (hrd ▸ he ▸ rfl)
          have h1 : sqlProj d'
              ({ row with
                  dataJson := doc
                  docstatus := docGetD doc "docstatus" (Json.num 0) } :: rest) =
              sqlProj d' rest := by
            simp [sqlProj, List.filter_cons, hne]
          have h2 : sqlProj d' (row :: rest) = sqlProj d' rest := by
            simp [sqlProj, List.filter_cons, hne]
          rw [h1, if_neg hd, h2]
      · have hstep : sqlSave d n doc (row :: rest) =
            row :: sqlSave d n doc rest := by
          simp [sqlSave, hrn]
        rw [hstep]
        by_cases hrd : row.doctype = d'
        · have h1 : sqlProj d' (row :: sqlSave d n doc rest) =
              rowEntry row :: sqlProj d' (sqlSave d n doc rest) := by
            simp [sqlProj, List.filter_cons, hrd]
          have h2 : sqlProj d' (row :: rest) =
              rowEntry row :: sqlProj d' rest := by
            simp [sqlProj, List.filter_cons, hrd]
          rw [h1, ihrest]
          by_cases hd : d = d'
          · subst hd
            rw [if_pos rfl, h2]
            have hset : Al.set (rowEntry row :: sqlProj d rest) n doc =
                rowEntry row :: Al.set (sqlProj d rest) n doc := by
              simp [Al.set, rowEntry, hrn]
            rw [hset, if_pos rfl]
          · rw [if_neg hd, if_neg hd, h2]
        · have h1 : sqlProj d' (row :: sqlSave d n doc rest) =
              sqlProj d' (sqlSave d n doc rest) := by
            simp [sqlProj, List.filter_cons, hrd]
          rw [h1, ihrest]
          by_cases hd : d = d'
          · subst hd
            have h3 : sqlProj d (row :: rest) = sqlProj d rest := by
              simp [sqlProj, List.filter_cons, hrd]
            rw [if_pos rfl, if_pos rfl, h3]
          · have h2 : sqlProj d' (row :: rest) = sqlProj d' rest := by
              simp [sqlProj, List.filter_cons, hrd]
            rw [if_neg hd, if_neg hd, h2]

theorem sqlDelete_proj (d n : String) (rows : List SqlRow) :
    (sqlDelete d n rows).1 = decide (n ∈ Al.keys (sqlProj d rows)) ∧
    (∀ d', sqlProj d' (sqlDelete d n rows).2 =
      if d = d' then Al.erase (sqlProj d rows) n else sqlProj d' rows) := by
  induction rows with
  | nil =>
      refine ⟨by simp [sqlDelete, sqlProj, Al.keys], ?_⟩
      intro d'
      by_cases hd : d = d' <;> simp [sqlDelete, sqlProj, Al.erase, hd]
  | cons row rest ih =>
      by_cases hmatch : row.doctype = d ∧ row.name = n
      · obtain ⟨hrd, hrn⟩ := hmatch
        have hstep : sqlDelete d n (row :: rest) = (true, rest) := by
          simp [sqlDelete, hrd, hrn]
        rw [hstep]
        have h2 : sqlProj d (row :: rest) =
            (row.name, row.dataJson) :: sqlProj d rest := by
          simp [sqlProj, List.filter_cons, hrd, rowEntry]
        constructor
        · simp [h2, hrn, Al.keys_cons]
        · intro d'
          by_cases hd : d = d'
          · subst hd
            rw [if_pos rfl, h2]
            simp [Al.erase, hrn]
          · have hne : ¬row.doctype = d' := fun he => hd (hrd ▸ he ▸ rfl)
            rw [if_neg hd]
            simp [sqlProj, List.filter_cons, hne]
      · have hstep : sqlDelete d n (row :: rest) =
            ((sqlDelete d n rest).1, row :: (sqlDelete d n rest).2) := by
          simp [sqlDelete, hmatch]
        rw [hstep]
        by_cases hrd : row.doctype = d
        · have hrn : ¬row.name = n := fun he => hmatch ⟨hrd, he⟩
          have h2 : sqlProj d (row :: rest) =
              (row.name, row.dataJson) :: sqlProj d rest := by
            simp [sqlProj, List.filter_cons, hrd, rowEntry]
          constructor
          · rw [h2, ih.1]
            have hiff : n ∈ Al.keys ((row.name, row.dataJson) :: sqlProj d rest) ↔
                n ∈ Al.keys (sqlProj d rest) := by
              rw [Al.keys_cons, List.mem_cons]
              constructor
              · rintro (he | hm)
                · exact absurd he.symm hrn
                · exact hm
              · exact Or.inr
            exact decide_eq_decide.mpr hiff.symm
          · intro d'
            by_cases hd : d = d'
            · subst hd
              have h3 : sqlProj d (row :: (sqlDelete d n rest).2) =
                  (row.name, row.dataJson) :: sqlProj d (sqlDelete d n rest).2 := by
                simp [sqlProj, List.filter_cons, hrd, rowEntry]
              rw [if_pos rfl, h3, ih.2 d, if_pos rfl, h2]
              simp [Al.erase, hrn]
            · have hne : ¬row.doctype = d' := fun he => hd ((hrd ▸ he : (d:String) = d') ▸ rfl)
              have h3 : sqlProj d' (row :: (sqlDelete d n rest).2) =
                  sqlProj d' (sqlDelete d n rest).2 := by
                simp [sqlProj, List.filter_cons, hne]
              rw [if_neg hd, h3, ih.2 d', if_neg hd]
              simp [sqlProj, List.filter_cons, hne]
        · have h2 : sqlProj d (row :: rest) = sqlProj d rest := by
            simp [sqlProj, List.filter_cons, hrd]
          constructor
          · rw [h2, ih.1]
          · intro d'
            by_cases hd : d = d'
            · subst hd
              have h3 : sqlProj d (row :: (sqlDelete d n rest).2) =
                  sqlProj d (sqlDelete d n rest).2 := by
                simp [sqlProj, List.filter_cons, hrd]
              rw [if_pos rfl, h3, ih.2 d, if_pos rfl, h2]
            · by_cases hrd' : row.doctype = d'
              · have h3 : sqlProj d' (row :: (sqlDelete d n rest).2) =
                    rowEntry row :: sqlProj d' (sqlDelete d n rest).2 := by
                  simp [sqlProj, List.filter_cons, hrd']
                have h4 : sqlProj d' (row :: rest) =
                    rowEntry row :: sqlProj d' rest := by
                  simp [sqlProj, List.filter_cons, hrd']
                rw [if_neg hd, h3, ih.2 d', if_neg hd, h4]
              · have h3 : sqlProj d' (row :: (sqlDelete d n rest).2) =
                    sqlProj d' (sqlDelete d n rest).2 := by
                  simp [sqlProj, List.filter_cons, hrd']
                have h4 : sqlProj d' (row :: rest) = sqlProj d' rest := by
                  simp [sqlProj, List.filter_cons, hrd']
                rw [if_neg hd, h3, ih.2 d', if_neg hd, h4]

theorem sqlSave_tracked (d n : String) (doc : Doc) (rows : List SqlRow)
    (P : List (String × String)) (htr : RowsTracked rows P)
    (hp : (d, n) ∈ P) : RowsTracked (sqlSave d n doc rows) P := by
  induction rows with
  | nil =>
      intro r hr
      simp [sqlSave] at hr
      rw [hr]
      exact hp
  | cons row rest ih =>
      have htr' : RowsTracked rest P :=
        fun r hr => htr r (List.mem_cons_of_mem _ hr)
      intro r hr
      by_cases hrn : row.name = n
      · simp only [sqlSave, hrn, if_pos rfl] at hr
        rcases List.mem_cons.mp hr with he | hm
        · rw [he]
          have hmem := htr row (List.mem_cons_self _ _)
          rw [hrn] at hmem
          exact hmem
        · exact htr r (List.mem_cons_of_mem _ hm)
      · simp only [sqlSave, hrn, if_false] at hr
        rcases List.mem_cons.mp hr with he | hm
        · rw [he]
          exact htr row (List.mem_cons_self _ _)
        · exact ih htr' r hm

theorem sqlDelete_mem (d n : String) (rows : List SqlRow) :
    ∀ r ∈ (sqlDelete d n rows).2, r ∈ rows := by
  induction rows with
  | nil => intro r hr; simp [sqlDelete] at hr
  | cons row rest ih =>
      intro r hr
      by_cases hmatch : row.doctype = d ∧ row.name = n
      · have hres : (sqlDelete d n (row :: rest)).2 = rest := by
          simp [sqlDelete, hmatch.1, hmatch.2]
        rw [hres] at hr
        exact List.mem_cons_of_mem _ hr
      · have : (sqlDelete d n (row :: rest)).2 =
            row :: (sqlDelete d n rest).2 := by
          simp [sqlDelete, hmatch]
        rw [this] at hr
        rcases List.mem_cons.mp hr with he | hm
        · rw [he]; exact List.mem_cons_self _ _
        · exact List.mem_cons_of_mem _ (ih r hm)

theorem rows_no_cross (rows : List SqlRow) (P : List (String × String))
    (d n : String) (htr : RowsTracked rows P) (hfun : PairsFunctional P)
    (hp : (d, n) ∈ P) : ∀ r ∈ rows, r.name = n → r.doctype = d :=
  fun r hr hn =>
    hfun (r.doctype, r.name) (htr r hr) (d, n) hp (by simpa using hn)

/-- One store operation preserves the refinement relation and produces the
same observation on both backends (under the single-doctype-per-name
discipline). -/
theorem storeStep_refine (P : List (String × String))
    (hfun : PairsFunctional P) (op : StoreOp) (s : MemState)
    (rows : List SqlRow) (hrel : StoreRel s rows) (htr : RowsTracked rows P)
    (hop : ∀ d n doc, op = StoreOp.save d n doc → (d, n) ∈ P) :
    (memStep s op).1 = (sqlStep rows op).1 ∧
    StoreRel (memStep s op).2 (sqlStep rows op).2 ∧
    RowsTracked (sqlStep rows op).2 P := by
  cases op with
  | save d n doc =>
      have hp := hop d n doc rfl
      have hno := rows_no_cross rows P d n htr hfun hp
      refine ⟨rfl, ?_, sqlSave_tracked d n doc rows P htr hp⟩
      intro d'
      show storeOf (save_document d n doc s) d' =
        sqlProj d' (sqlSave d n doc rows)
      rw [storeOf_save_document, sqlSave_proj d n doc rows hno d']
      by_cases hd : d = d'
      · rw [if_pos hd, if_pos hd, hrel d]
      · rw [if_neg hd, if_neg hd, hrel d']
  | getOp d n =>
      refine ⟨?_, hrel, htr⟩
      show StoreObs.got (get_document d n s) = StoreObs.got (sqlGet d n rows)
      rw [show get_document d n s = Al.get (storeOf s d) n from rfl,
        hrel d, sqlGet_proj]
  | listOp d st len =>
      refine ⟨?_, hrel, htr⟩
      show StoreObs.listed (list_documents d st len s) =
        StoreObs.listed (sqlList d st len rows)
      rw [sqlList_proj]
      show StoreObs.listed (((Al.values (storeOf s d)).drop st).take len) = _
      rw [hrel d]
  | deleteOp d n =>
      obtain ⟨hm1, hm2⟩ := delete_document_spec d n s
      obtain ⟨hs1, hs2⟩ := sqlDelete_proj d n rows
      refine ⟨?_, ?_, ?_⟩
      · show StoreObs.deleted (delete_document d n s).1 =
          StoreObs.deleted (sqlDelete d n rows).1
        rw [hm1, hs1, hrel d]
      · intro d'
        show storeOf (delete_document d n s).2 d' =
          sqlProj d' (sqlDelete d n rows).2
        rw [hm2 d', hs2 d']
        by_cases hd : d = d'
        · rw [if_pos hd, if_pos hd, hrel d]
        · rw [if_neg hd, if_neg hd, hrel d']
      · intro r hr
        exact htr r (sqlDelete_mem d n rows r hr)

/-- A whole operation sequence preserves the refinement relation and
yields identical observation traces on both backends. -/
theorem storeRun_refine (P : List (String × String))
    (hfun : PairsFunctional P) :
    ∀ (ops : List StoreOp) (s : MemState) (rows : List SqlRow),
      StoreRel s rows → RowsTracked rows P →
      (∀ p ∈ savePairs ops, p ∈ P) →
      (memRun ops s).1 = (sqlRun ops rows).1 ∧
      StoreRel (memRun ops s).2 (sqlRun ops rows).2 ∧
      RowsTracked (sqlRun ops rows).2 P := by
  intro ops
  induction ops with
  | nil =>
      intro s rows hrel htr _
      exact ⟨rfl, hrel, htr⟩
  | cons op rest ih =>
      intro s rows hrel htr hsub
      have hop : ∀ d n doc, op = StoreOp.save d n doc → (d, n) ∈ P := by
        intro d n doc he
        subst he
        exact hsub _ (List.mem_cons_self _ _)
      obtain ⟨ho, hrel', htr'⟩ := storeStep_refine P hfun op s rows hrel htr hop
      have hsub' : ∀ p ∈ savePairs rest, p ∈ P := by
        intro p hp
        apply hsub
        cases op with
        | save d n doc => exact List.mem_cons_of_mem _ hp
        | getOp d n => exact hp
        | listOp d st len => exact hp
        | deleteOp d n => exact hp
      obtain ⟨h1, h2, h3⟩ :=
        ih (memStep s op).2 (sqlStep rows op).2 hrel' htr' hsub'
      refine ⟨?_, h2, h3⟩
      show (memStep s op).1 :: (memRun rest (memStep s op).2).1 =
        (sqlStep rows op).1 :: (sqlRun rest (sqlStep rows op).2).1
      rw [ho, h1]

theorem StoreRel_init : StoreRel initState [] := by
  intro d
  rw [storeOf_initState]
  rfl

/-! ## Handler equations -/

theorem get_logged_user_unauth (h : String) (s : MemState)
    (hau : authenticate h = false) :
    get_logged_user h s = (authFailedResp, s) := by
  simp [get_logged_user, hau]

theorem get_logged_user_auth (h : String) (s : MemState)
    (hau : authenticate h = true) :
    get_logged_user h s = (⟨200, RespBody.message "Administrator"⟩, s) := by
  simp [get_logged_user, hau]

theorem get_resources_unauth (h d : String) (st len : Nat) (s : MemState)
    (hau : authenticate h = false) :
    get_resources h d st len s = (authFailedResp, s) := by
  simp [get_resources, hau]

theorem get_resources_auth (h d : String) (st len : Nat) (s : MemState)
    (hau : authenticate h = true) :
    get_resources h d st len s =
      (⟨200, RespBody.dataList (list_documents d st len s)⟩, s) := by
  simp [get_resources, hau]

theorem get_resource_unauth (h d n : String) (s : MemState)
    (hau : authenticate h = false) :
    get_resource h d n s = (authFailedResp, s) := by
  simp [get_resource, hau]

theorem get_resource_notfound (h d n : String) (s : MemState)
    (hau : authenticate h = true) (hget : get_document d n s = none) :
    get_resource h d n s = (notFoundResp d n, s) := by
  simp [get_resource, hau, hget]

theorem get_resource_found (h d n : String) (doc : Doc) (s : MemState)
    (hau : authenticate h = true) (hget : get_document d n s = some doc)
    (hne : doc.isEmpty = false) :
    get_resource h d n s = (⟨200, RespBody.data doc⟩, s) := by
  simp [get_resource, hau, hget, hne]

theorem create_customer_unauth (h : String) (cl : Clock) (data : Doc)
    (s : MemState) (hau : authenticate h = false) :
    create_customer h cl data s = (authFailedResp, s) := by
  simp [create_customer, hau]

theorem create_customer_missing (h : String) (cl : Clock) (data : Doc)
    (s : MemState) (hau : authenticate h = true)
    (hval : truthy (docGet data "customer_name") = false) :
    create_customer h cl data s =
      (validationResp "Mandatory field customer_name missing", s) := by
  simp [create_customer, hau, hval]

theorem create_customer_success (h : String) (cl : Clock) (data : Doc)
    (s : MemState) (hau : authenticate h = true)
    (hval : truthy (docGet data "customer_name") = true) :
    create_customer h cl data s =
      (⟨201, RespBody.data (customerDoc cl data
          (formatDocName "Customer" cl.year (counterOf s "Customer")))⟩,
        save_document "Customer"
          (formatDocName "Customer" cl.year (counterOf s "Customer"))
          (customerDoc cl data
            (formatDocName "Customer" cl.year (counterOf s "Customer")))
          { s with
              counters :=
                Al.set s.counters "Customer" (counterOf s "Customer" + 1) }) := by
  simp [create_customer, hau, hval, generate_doc_name, get_next_counter]

theorem create_journal_entry_unauth (h : String) (cl : Clock) (data : Doc)
    (s : MemState) (hau : authenticate h = false) :
    create_journal_entry h cl data s = (authFailedResp, s) := by
  simp [create_journal_entry, hau]

theorem create_journal_entry_no_company (h : String) (cl : Clock)
    (data : Doc) (s : MemState) (hau : authenticate h = true)
    (hval : truthy (docGet data "company") = false) :
    create_journal_entry h cl data s =
      (validationResp "Mandatory field company missing", s) := by
  simp [create_journal_entry, hau, hval]

theorem create_journal_entry_bad_accounts (h : String) (cl : Clock)
    (data : Doc) (s : MemState) (hau : authenticate h = true)
    (hco : truthy (docGet data "company") = true)
    (hval : truthy (docGet data "accounts") = false ∨
      jsonLen (docGetD data "accounts" Json.null) < 2) :
    create_journal_entry h cl data s =
      (validationResp "At least 2 accounts required for a Journal Entry",
        s) := by
  rcases hval with hval | hval <;>
    simp [create_journal_entry, hau, hco, hval]

theorem create_journal_entry_unbalanced (h : String) (cl : Clock)
    (data : Doc) (s : MemState) (hau : authenticate h = true)
    (hco : truthy (docGet data "company") = true)
    (hacc : truthy (docGet data "accounts") = true)
    (hlen : ¬jsonLen (docGetD data "accounts" Json.null) < 2)
    (hbal : |sumAmounts "debit_in_account_currency"
          (docGetD data "accounts" Json.null) -
        sumAmounts "credit_in_account_currency"
          (docGetD data "accounts" Json.null)| > 1 / 100) :
    create_journal_entry h cl data s =
      (validationResp (balanceMsg
        (sumAmounts "debit_in_account_currency"
          (docGetD data "accounts" Json.null))
        (sumAmounts "credit_in_account_currency"
          (docGetD data "accounts" Json.null))), s) := by
  have hlenf : decide (jsonLen (docGetD data "accounts" Json.null) < 2) =
      false := decide_eq_false hlen
  simp [create_journal_entry, hau, hco, hacc, hlenf]
  intro hc
  rw [gt_iff_lt, show (1 : ℚ) / 100 = 100⁻¹ from one_div 100] at hbal
  exact absurd hbal (not_lt.mpr hc)

theorem create_journal_entry_success (h : String) (cl : Clock) (data : Doc)
    (s : MemState) (hau : authenticate h = true)
    (hco : truthy (docGet data "company") = true)
    (hacc : truthy (docGet data "accounts") = true)
    (hlen : ¬jsonLen (docGetD data "accounts" Json.null) < 2)
    (hbal : ¬|sumAmounts "debit_in_account_currency"
          (docGetD data "accounts" Json.null) -
        sumAmounts "credit_in_account_currency"
          (docGetD data "accounts" Json.null)| > 1 / 100) :
    create_journal_entry h cl data s =
      (⟨201, RespBody.data (journalEntryDoc cl data
          (formatDocName "Journal Entry" cl.year (counterOf s "Journal Entry"))
          (sumAmounts "debit_in_account_currency"
            (docGetD data "accounts" Json.null))
          (sumAmounts "credit_in_account_currency"
            (docGetD data "accounts" Json.null)))⟩,
        save_document "Journal Entry"
          (formatDocName "Journal Entry" cl.year (counterOf s "Journal Entry"))
          (journalEntryDoc cl data
            (formatDocName "Journal Entry" cl.year
              (counterOf s "Journal Entry"))
            (sumAmounts "debit_in_account_currency"
              (docGetD data "accounts" Json.null))
            (sumAmounts "credit_in_account_currency"
              (docGetD data "accounts" Json.null)))
          { s with
              counters := Al.set s.counters "Journal Entry"
                (counterOf s "Journal Entry" + 1) }) := by
  have hlenf : decide (jsonLen (docGetD data "accounts" Json.null) < 2) =
      false := decide_eq_false hlen
  simp [create_journal_entry, hau, hco, hacc, hlenf,
    generate_doc_name, get_next_counter]
  intro hc
  rw [gt_iff_lt, show (1 : ℚ) / 100 = 100⁻¹ from one_div 100] at hbal
  exact absurd hc hbal

theorem create_purchase_invoice_unauth (h : String) (cl : Clock)
    (data : Doc) (s : MemState) (hau : authenticate h = false) :
    create_purchase_invoice h cl data s = (authFailedResp, s) := by
  simp [create_purchase_invoice, hau]

theorem create_purchase_invoice_no_supplier (h : String) (cl : Clock)
    (data : Doc) (s : MemState) (hau : authenticate h = true)
    (hval : truthy (docGet data "supplier") = false) :
    create_purchase_invoice h cl data s =
      (validationResp "Mandatory field supplier missing", s) := by
  simp [create_purchase_invoice, hau, hval]

theorem create_purchase_invoice_no_items (h : String) (cl : Clock)
    (data : Doc) (s : MemState) (hau : authenticate h = true)
    (hsu : truthy (docGet data "supplier") = true)
    (hval : truthy (docGet data "items") = false ∨
      jsonLen (docGetD data "items" Json.null) = 0) :
    create_purchase_invoice h cl data s =
      (validationResp "At least 1 item required for Purchase Invoice",
        s) := by
  rcases hval with hval | hval <;>
    simp [create_purchase_invoice, hau, hsu, hval]

theorem create_purchase_invoice_success (h : String) (cl : Clock)
    (data : Doc) (s : MemState) (hau : authenticate h = true)
    (hsu : truthy (docGet data "supplier") = true)
    (hit : truthy (docGet data "items") = true)
    (hlen : ¬jsonLen (docGetD data "items" Json.null) = 0) :
    create_purchase_invoice h cl data s =
      (⟨201, RespBody.data (purchaseInvoiceDoc cl data
          (formatDocName "Purchase Invoice" cl.year
            (counterOf s "Purchase Invoice"))
          (sumAmounts "amount" (docGetD data "items" Json.null)))⟩,
        save_document "Purchase Invoice"
          (formatDocName "Purchase Invoice" cl.year
            (counterOf s "Purchase Invoice"))
          (purchaseInvoiceDoc cl data
            (formatDocName "Purchase Invoice" cl.year
              (counterOf s "Purchase Invoice"))
            (sumAmounts "amount" (docGetD data "items" Json.null)))
          { s with
              counters := Al.set s.counters "Purchase Invoice"
                (counterOf s "Purchase Invoice" + 1) }) := by
  simp [create_purchase_invoice, hau, hsu, hit, hlen,
    generate_doc_name, get_next_counter]

theorem create_payment_entry_unauth (h : String) (cl : Clock) (data : Doc)
    (s : MemState) (hau : authenticate h = false) :
    create_payment_entry h cl data s = (authFailedResp, s) := by
  simp [create_payment_entry, hau]

theorem create_payment_entry_no_type (h : String) (cl : Clock) (data : Doc)
    (s : MemState) (hau : authenticate h = true)
    (hval : truthy (docGet data "payment_type") = false) :
    create_payment_entry h cl data s =
      (validationResp "Mandatory field payment_type missing", s) := by
  simp [create_payment_entry, hau, hval]

theorem create_payment_entry_no_party (h : String) (cl : Clock) (data : Doc)
    (s : MemState) (hau : authenticate h = true)
    (hty : truthy (docGet data "payment_type") = true)
    (hval : truthy (docGet data "party_type") = false ∨
      truthy (docGet data "party") = false) :
    create_payment_entry h cl data s =
      (validationResp "Mandatory fields party_type and party missing",
        s) := by
  rcases hval with hval | hval <;>
    simp [create_payment_entry, hau, hty, hval]

theorem create_payment_entry_success (h : String) (cl : Clock) (data : Doc)
    (s : MemState) (hau : authenticate h = true)
    (hty : truthy (docGet data "payment_type") = true)
    (hpt : truthy (docGet data "party_type") = true)
    (hpa : truthy (docGet data "party") = true) :
    create_payment_entry h cl data s =
      (⟨201, RespBody.data (paymentEntryDoc cl data
          (formatDocName "Payment Entry" cl.year
            (counterOf s "Payment Entry")))⟩,
        save_document "Payment Entry"
          (formatDocName "Payment Entry" cl.year
            (counterOf s "Payment Entry"))
          (paymentEntryDoc cl data
            (formatDocName "Payment Entry" cl.year
              (counterOf s "Payment Entry")))
          { s with
              counters := Al.set s.counters "Payment Entry"
                (counterOf s "Payment Entry" + 1) }) := by
  simp [create_payment_entry, hau, hty, hpt, hpa,
    generate_doc_name, get_next_counter]

theorem update_resource_unauth (h d n : String) (cl : Clock) (body : Doc)
    (s : MemState) (hau : authenticate h = false) :
    update_resource h d n cl body s = (authFailedResp, s) := by
  simp [update_resource, hau]

theorem update_resource_notfound (h d n : String) (cl : Clock) (body : Doc)
    (s : MemState) (hau : authenticate h = true)
    (hget : get_document d n s = none) :
    update_resource h d n cl body s = (notFoundResp d n, s) := by
  simp [update_resource, hau, hget]

theorem update_resource_empty (h d n : String) (cl : Clock) (body : Doc)
    (doc : Doc) (s : MemState) (hau : authenticate h = true)
    (hget : get_document d n s = some doc) (he : doc.isEmpty = true) :
    update_resource h d n cl body s = (notFoundResp d n, s) := by
  simp [update_resource, hau, hget, he]

theorem update_resource_found (h d n : String) (cl : Clock) (body : Doc)
    (doc : Doc) (s : MemState) (hau : authenticate h = true)
    (hget : get_document d n s = some doc) (hne : doc.isEmpty = false) :
    update_resource h d n cl body s =
      (⟨200, RespBody.data
          (docSet (docUpdate doc body) "modified" (Json.str cl.nowIso))⟩,
        save_document d n
          (docSet (docUpdate doc body) "modified" (Json.str cl.nowIso))
          s) := by
  simp [update_resource, hau, hget, hne]

theorem delete_resource_unauth (h d n : String) (s : MemState)
    (hau : authenticate h = false) :
    delete_resource h d n s = (authFailedResp, s) := by
  simp [delete_resource, hau]

theorem delete_resource_found (h d n : String) (s : MemState)
    (hau : authenticate h = true)
    (hmem : (delete_document d n s).1 = true) :
    delete_resource h d n s =
      (⟨200, RespBody.message "ok"⟩, (delete_document d n s).2) := by
  simp [delete_resource, hau, hmem]

theorem delete_resource_notfound (h d n : String) (s : MemState)
    (hau : authenticate h = true)
    (hmem : (delete_document d n s).1 = false) :
    delete_resource h d n s =
      (notFoundResp d n, (delete_document d n s).2) := by
  simp [delete_resource, hau, hmem]

/-! ## Created-name accounting and the server invariant -/

/-- The document name carried by one served call, when it is a successful
(201) create of the given doctype. -/
def createdName1 (doctype : String) (x : Call × Response) : Option String :=
  match x.1.req, x.2 with
  | Request.createRes d _, ⟨201, RespBody.data doc⟩ =>
      if d = doctype then
        match docGet doc "name" with
        | some (Json.str nm) => some nm
        | _ => none
      else none
  | _, _ => none

/-- All names handed out by successful creates of the given doctype, in
order. -/
def createdNames (doctype : String) (outs : List (Call × Response)) :
    List String :=
  outs.filterMap (createdName1 doctype)

/-- The server-state invariant: every stored key of a supported doctype
was minted by the naming service below the current counter, keys are
unique per doctype, and unsupported doctypes store nothing. -/
def StateInv (s : MemState) : Prop :=
  (∀ d ∈ supportedDoctypes, ∀ k ∈ Al.keys (storeOf s d),
    ∃ y c, c < counterOf s d ∧ k = formatDocName d y c) ∧
  (∀ d ∈ supportedDoctypes, (Al.keys (storeOf s d)).Nodup) ∧
  (∀ d, d ∉ supportedDoctypes → storeOf s d = [])

theorem StateInv_init : StateInv initState := by
  refine ⟨?_, ?_, ?_⟩
  · intro d _ k hk
    rw [storeOf_initState] at hk
    simp at hk
  · intro d _
    rw [storeOf_initState]
    exact List.nodup_nil
  · intro d _
    exact storeOf_initState d

theorem counterOf_set (s : MemState) (dt : String) (v : Nat) (d' : String) :
    counterOf { s with counters := Al.set s.counters dt v } d' =
      if dt = d' then v else counterOf s d' := by
  unfold counterOf
  show (Al.get (Al.set s.counters dt v) d').getD 1 = _
  rw [Al.get_set]
  by_cases hd : dt = d'
  · rw [if_pos hd, if_pos hd]
    rfl
  · rw [if_neg hd, if_neg hd]

theorem storeOf_set_counters (s : MemState) (dt : String) (v : Nat)
    (d' : String) :
    storeOf { s with counters := Al.set s.counters dt v } d' =
      storeOf s d' := rfl

/-- A fresh name minted at the current counter value is not yet a key of
the store. -/
theorem fresh_name_not_mem (dt : String) (hdt : dt ∈ supportedDoctypes)
    (y : Nat) (s : MemState) (hinv : StateInv s) :
    formatDocName dt y (counterOf s dt) ∉ Al.keys (storeOf s dt) := by
  intro hmem
  obtain ⟨y', c', hlt, he⟩ := hinv.1 dt hdt _ hmem
  have := formatDocName_counter_inj dt hdt he
  omega

/-- The state effect of a successful create preserves the invariant. -/
theorem createSuccess_inv (dt : String) (hdt : dt ∈ supportedDoctypes)
    (y : Nat) (newDoc : Doc) (s : MemState) (hinv : StateInv s) :
    StateInv (save_document dt (formatDocName dt y (counterOf s dt)) newDoc
      { s with counters := Al.set s.counters dt (counterOf s dt + 1) }) := by
  set nm := formatDocName dt y (counterOf s dt) with hnm
  have hfresh : nm ∉ Al.keys (storeOf s dt) :=
    fresh_name_not_mem dt hdt y s hinv
  set s1 : MemState :=
    { s with counters := Al.set s.counters dt (counterOf s dt + 1) } with hs1
  have hstore1 : ∀ d', storeOf s1 d' = storeOf s d' := fun _ => rfl
  have hcnt : ∀ d', counterOf (save_document dt nm newDoc s1) d' =
      if dt = d' then counterOf s dt + 1 else counterOf s d' := by
    intro d'
    rw [counterOf_save_document]
    exact counterOf_set s dt _ d'
  have hst : ∀ d', storeOf (save_document dt nm newDoc s1) d' =
      if dt = d' then Al.set (storeOf s dt) nm newDoc else storeOf s d' := by
    intro d'
    rw [storeOf_save_document, hstore1, hstore1]
  have hkeys : Al.keys (Al.set (storeOf s dt) nm newDoc) =
      Al.keys (storeOf s dt) ++ [nm] :=
    Al.keys_set_of_not_mem _ _ _ hfresh
  refine ⟨?_, ?_, ?_⟩
  · intro d' hd' k hk
    rw [hst] at hk
    by_cases hd : dt = d'
    · rw [if_pos hd] at hk
      rw [hkeys] at hk
      rw [hcnt, if_pos hd, ← hd]
      rcases List.mem_append.mp hk with hk | hk
      · obtain ⟨y', c', hlt, he⟩ := hinv.1 dt hdt k hk
        exact ⟨y', c', by omega, he⟩
      · have he : k = nm := by simpa using hk
        exact ⟨y, counterOf s dt, by omega, he⟩
    · rw [if_neg hd] at hk
      rw [hcnt, if_neg hd]
      exact hinv.1 d' hd' k hk
  · intro d' hd'
    rw [hst]
    by_cases hd : dt = d'
    · rw [if_pos hd, hkeys]
      rw [List.nodup_append]
      exact ⟨hinv.2.1 dt hdt, List.nodup_singleton _,
        fun a ha hb => hfresh ((by simpa using hb) ▸ ha)⟩
    · rw [if_neg hd]
      exact hinv.2.1 d' hd'
  · intro d' hd'
    rw [hst]
    have hne : ¬dt = d' := fun he => hd' (he ▸ hdt)
    rw [if_neg hne]
    exact hinv.2.2 d' hd'

theorem get_resource_empty (h d n : String) (doc : Doc) (s : MemState)
    (hau : authenticate h = true) (hget : get_document d n s = some doc)
    (he : doc.isEmpty = true) :
    get_resource h d n s = (notFoundResp d n, s) := by
  simp [get_resource, hau, hget, he]

/-- Saving under an existing key preserves the server invariant (the
update path). -/
theorem save_existing_inv (d0 n : String) (doc' : Doc) (s : MemState)
    (hinv : StateInv s) (hmem : n ∈ Al.keys (storeOf s d0)) :
    StateInv (save_document d0 n doc' s) := by
  have hkeys : Al.keys (Al.set (storeOf s d0) n doc') =
      Al.keys (storeOf s d0) := Al.keys_set_of_mem _ _ _ hmem
  refine ⟨?_, ?_, ?_⟩
  · intro d' hd' k hk
    rw [storeOf_save_document] at hk
    rw [counterOf_save_document]
    by_cases hd : d0 = d'
    · subst hd
      rw [if_pos rfl, hkeys] at hk
      exact hinv.1 d0 hd' k hk
    · rw [if_neg hd] at hk
      exact hinv.1 d' hd' k hk
  · intro d' hd'
    rw [storeOf_save_document]
    by_cases hd : d0 = d'
    · subst hd
      rw [if_pos rfl, hkeys]
      exact hinv.2.1 d0 hd'
    · rw [if_neg hd]
      exact hinv.2.1 d' hd'
  · intro d' hd'
    rw [storeOf_save_document]
    by_cases hd : d0 = d'
    · subst hd
      rw [hinv.2.2 d0 hd'] at hmem
      simp at hmem
    · rw [if_neg hd]
      exact hinv.2.2 d' hd'

/-- Deleting preserves the server invariant. -/
theorem delete_inv (d0 n : String) (s : MemState) (hinv : StateInv s) :
    StateInv (delete_document d0 n s).2 := by
  obtain ⟨_, hst⟩ := delete_document_spec d0 n s
  refine ⟨?_, ?_, ?_⟩
  · intro d' hd' k hk
    rw [hst d'] at hk
    rw [counterOf_delete_document]
    by_cases hd : d0 = d'
    · subst hd
      rw [if_pos rfl] at hk
      exact hinv.1 d0 hd' k ((Al.keys_erase_sublist _ n).subset hk)
    · rw [if_neg hd] at hk
      exact hinv.1 d' hd' k hk
  · intro d' hd'
    rw [hst d']
    by_cases hd : d0 = d'
    · subst hd
      rw [if_pos rfl]
      exact (Al.keys_erase_sublist _ n).nodup (hinv.2.1 d0 hd')
    · rw [if_neg hd]
      exact hinv.2.1 d' hd'
  · intro d' hd'
    rw [hst d']
    by_cases hd : d0 = d'
    · subst hd
      rw [if_pos rfl, hinv.2.2 d0 hd']
      rfl
    · rw [if_neg hd]
      exact hinv.2.2 d' hd'

/-- One served request preserves the server invariant; per supported
doctype it either hands out no name and leaves the doctype's counter
alone, or hands out exactly the name minted at the current counter value
and bumps the counter by one. -/
theorem stepRequest_spec (c : Call) (s : MemState) (hinv : StateInv s) :
    StateInv (stepRequest c.authHeader c.clock c.req s).2 ∧
    (∀ d ∈ supportedDoctypes,
      (createdName1 d (c, (stepRequest c.authHeader c.clock c.req s).1) =
          none ∧
        counterOf (stepRequest c.authHeader c.clock c.req s).2 d =
          counterOf s d) ∨
      (createdName1 d (c, (stepRequest c.authHeader c.clock c.req s).1) =
          some (formatDocName d c.clock.year (counterOf s d)) ∧
        counterOf (stepRequest c.authHeader c.clock c.req s).2 d =
          counterOf s d + 1)) := by
  obtain ⟨h, cl, req⟩ := c
  cases req with
  | loggedUser =>
      have hstate : (get_logged_user h s).2 = s := by
        cases hau : authenticate h
        · rw [get_logged_user_unauth h s hau]
        · rw [get_logged_user_auth h s hau]
      refine ⟨?_, ?_⟩
      · show StateInv (get_logged_user h s).2
        rw [hstate]; exact hinv
      · intro d _
        left
        refine ⟨rfl, ?_⟩
        show counterOf (get_logged_user h s).2 d = counterOf s d
        rw [hstate]
  | listRes d0 st len =>
      have hstate : (get_resources h d0 st len s).2 = s := by
        cases hau : authenticate h
        · rw [get_resources_unauth h d0 st len s hau]
        · rw [get_resources_auth h d0 st len s hau]
      refine ⟨?_, ?_⟩
      · show StateInv (get_resources h d0 st len s).2
        rw [hstate]; exact hinv
      · intro d _
        left
        refine ⟨rfl, ?_⟩
        show counterOf (get_resources h d0 st len s).2 d = counterOf s d
        rw [hstate]
  | getRes d0 n =>
      have hstate : (get_resource h d0 n s).2 = s := by
        cases hau : authenticate h
        · rw [get_resource_unauth h d0 n s hau]
        · cases hget : get_document d0 n s with
          | none => rw [get_resource_notfound h d0 n s hau hget]
          | some doc =>
              cases he : doc.isEmpty
              · rw [get_resource_found h d0 n doc s hau hget he]
              · rw [get_resource_empty h d0 n doc s hau hget he]
      refine ⟨?_, ?_⟩
      · show StateInv (get_resource h d0 n s).2
        rw [hstate]; exact hinv
      · intro d _
        left
        refine ⟨rfl, ?_⟩
        show counterOf (get_resource h d0 n s).2 d = counterOf s d
        rw [hstate]
  | updateRes d0 n body =>
      have hmain : (update_resource h d0 n cl body s).2 = s ∨
          (∃ doc', (update_resource h d0 n cl body s).2 =
            save_document d0 n doc' s ∧ n ∈ Al.keys (storeOf s d0)) := by
        cases hau : authenticate h
        · left; rw [update_resource_unauth h d0 n cl body s hau]
        · cases hget : get_document d0 n s with
          | none => left; rw [update_resource_notfound h d0 n cl body s hau hget]
          | some doc =>
              cases he : doc.isEmpty
              · right
                refine ⟨docSet (docUpdate doc body) "modified"
                    (Json.str cl.nowIso), ?_, ?_⟩
                · rw [update_resource_found h d0 n cl body doc s hau hget he]
                · exact Al.get_mem_of_eq_some _ _ _ hget
              · left; rw [update_resource_empty h d0 n cl body doc s hau hget he]
      refine ⟨?_, ?_⟩
      · show StateInv (update_resource h d0 n cl body s).2
        rcases hmain with hst | ⟨doc', hst, hmem⟩
        · rw [hst]; exact hinv
        · rw [hst]; exact save_existing_inv d0 n doc' s hinv hmem
      · intro d _
        left
        refine ⟨rfl, ?_⟩
        show counterOf (update_resource h d0 n cl body s).2 d = counterOf s d
        rcases hmain with hst | ⟨doc', hst, _⟩
        · rw [hst]
        · rw [hst]; exact counterOf_save_document d0 n doc' s d
  | deleteRes d0 n =>
      have hmain : (delete_resource h d0 n s).2 = s ∨
          (delete_resource h d0 n s).2 = (delete_document d0 n s).2 := by
        cases hau : authenticate h
        · left; rw [delete_resource_unauth h d0 n s hau]
        · cases hdel : (delete_document d0 n s).1
          · right; rw [delete_resource_notfound h d0 n s hau hdel]
          · right; rw [delete_resource_found h d0 n s hau hdel]
      refine ⟨?_, ?_⟩
      · show StateInv (delete_resource h d0 n s).2
        rcases hmain with hst | hst
        · rw [hst]; exact hinv
        · rw [hst]; exact delete_inv d0 n s hinv
      · intro d _
        left
        refine ⟨rfl, ?_⟩
        show counterOf (delete_resource h d0 n s).2 d = counterOf s d
        rcases hmain with hst | hst
        · rw [hst]
        · rw [hst]; exact counterOf_delete_document d0 n s d
  | createRes dt body =>
      by_cases h1 : dt = "Customer"
      · subst h1
        cases hau : authenticate h
        · have he := create_customer_unauth h cl body s hau
          refine ⟨?_, ?_⟩
          · show StateInv (create_customer h cl body s).2
            rw [he]; exact hinv
          · intro d _
            left
            refine ⟨?_, ?_⟩
            · show createdName1 d
                (⟨h, cl, Request.createRes "Customer" body⟩,
                  (create_customer h cl body s).1) = none
              rw [he]
              rfl
            · show counterOf (create_customer h cl body s).2 d = counterOf s d
              rw [he]
        · cases hval : truthy (docGet body "customer_name")
          · have he := create_customer_missing h cl body s hau hval
            refine ⟨?_, ?_⟩
            · show StateInv (create_customer h cl body s).2
              rw [he]; exact hinv
            · intro d _
              left
              refine ⟨?_, ?_⟩
              · show createdName1 d
                  (⟨h, cl, Request.createRes "Customer" body⟩,
                    (create_customer h cl body s).1) = none
                rw [he]
                rfl
              · show counterOf (create_customer h cl body s).2 d = counterOf s d
                rw [he]
          · have he := create_customer_success h cl body s hau hval
            refine ⟨?_, ?_⟩
            · show StateInv (create_customer h cl body s).2
              rw [he]
              exact createSuccess_inv "Customer" (by simp [supportedDoctypes])
                cl.year _ s hinv
            · intro d _
              by_cases hdd : "Customer" = d
              · subst hdd
                right
                refine ⟨?_, ?_⟩
                · show createdName1 "Customer"
                    (⟨h, cl, Request.createRes "Customer" body⟩,
                      (create_customer h cl body s).1) =
                    some (formatDocName "Customer" cl.year
                      (counterOf s "Customer"))
                  rw [he]
                  rfl
                · show counterOf (create_customer h cl body s).2 "Customer" =
                    counterOf s "Customer" + 1
                  rw [he, counterOf_save_document, counterOf_set, if_pos rfl]
              · left
                refine ⟨?_, ?_⟩
                · show createdName1 d
                    (⟨h, cl, Request.createRes "Customer" body⟩,
                      (create_customer h cl body s).1) = none
                  rw [he]
                  simp [createdName1, hdd]
                · show counterOf (create_customer h cl body s).2 d =
                    counterOf s d
                  rw [he, counterOf_save_document, counterOf_set, if_neg hdd]
      · by_cases h2 : dt = "Journal Entry"
        · subst h2
          have hstep : ∀ r : Response × MemState,
              create_journal_entry h cl body s = r →
              (stepRequest h cl (Request.createRes "Journal Entry" body) s) =
                r := by
            intro r hr
            rw [← hr]
            rfl
          cases hau : authenticate h
          · have he := create_journal_entry_unauth h cl body s hau
            refine ⟨?_, ?_⟩
            · show StateInv (create_journal_entry h cl body s).2
              rw [he]; exact hinv
            · intro d _
              left
              refine ⟨?_, ?_⟩
              · show createdName1 d
                  (⟨h, cl, Request.createRes "Journal Entry" body⟩,
                    (create_journal_entry h cl body s).1) = none
                rw [he]
                rfl
              · show counterOf (create_journal_entry h cl body s).2 d =
                  counterOf s d
                rw [he]
          · cases hco : truthy (docGet body "company")
            · have he := create_journal_entry_no_company h cl body s hau hco
              refine ⟨?_, ?_⟩
              · show StateInv (create_journal_entry h cl body s).2
                rw [he]; exact hinv
              · intro d _
                left
                refine ⟨?_, ?_⟩
                · show createdName1 d
                    (⟨h, cl, Request.createRes "Journal Entry" body⟩,
                      (create_journal_entry h cl body s).1) = none
                  rw [he]
                  rfl
                · show counterOf (create_journal_entry h cl body s).2 d =
                    counterOf s d
                  rw [he]
            · cases hacc : truthy (docGet body "accounts")
              · have he := create_journal_entry_bad_accounts h cl body s hau
                  hco (Or.inl hacc)
                refine ⟨?_, ?_⟩
                · show StateInv (create_journal_entry h cl body s).2
                  rw [he]; exact hinv
                · intro d _
                  left
                  refine ⟨?_, ?_⟩
                  · show createdName1 d
                      (⟨h, cl, Request.createRes "Journal Entry" body⟩,
                        (create_journal_entry h cl body s).1) = none
                    rw [he]
                    rfl
                  · show counterOf (create_journal_entry h cl body s).2 d =
                      counterOf s d
                    rw [he]
              · by_cases hlen : jsonLen (docGetD body "accounts" Json.null) < 2
                · have he := create_journal_entry_bad_accounts h cl body s hau
                    hco (Or.inr hlen)
                  refine ⟨?_, ?_⟩
                  · show StateInv (create_journal_entry h cl body s).2
                    rw [he]; exact hinv
                  · intro d _
                    left
                    refine ⟨?_, ?_⟩
                    · show createdName1 d
                        (⟨h, cl, Request.createRes "Journal Entry" body⟩,
                          (create_journal_entry h cl body s).1) = none
                      rw [he]
                      rfl
                    · show counterOf (create_journal_entry h cl body s).2 d =
                        counterOf s d
                      rw [he]
                · by_cases hbal : |sumAmounts "debit_in_account_currency"
                        (docGetD body "accounts" Json.null) -
                      sumAmounts "credit_in_account_currency"
                        (docGetD body "accounts" Json.null)| > 1 / 100
                  · have he := create_journal_entry_unbalanced h cl body s hau
                      hco hacc hlen hbal
                    refine ⟨?_, ?_⟩
                    · show StateInv (create_journal_entry h cl body s).2
                      rw [he]; exact hinv
                    · intro d _
                      left
                      refine ⟨?_, ?_⟩
                      · show createdName1 d
                          (⟨h, cl, Request.createRes "Journal Entry" body⟩,
                            (create_journal_entry h cl body s).1) = none
                        rw [he]
                        rfl
                      · show counterOf (create_journal_entry h cl body s).2 d =
                          counterOf s d
                        rw [he]
                  · have he := create_journal_entry_success h cl body s hau
                      hco hacc hlen hbal
                    refine ⟨?_, ?_⟩
                    · show StateInv (create_journal_entry h cl body s).2
                      rw [he]
                      exact createSuccess_inv "Journal Entry"
                        (by simp [supportedDoctypes]) cl.year _ s hinv
                    · intro d _
                      by_cases hdd : "Journal Entry" = d
                      · subst hdd
                        right
                        refine ⟨?_, ?_⟩
                        · show createdName1 "Journal Entry"
                            (⟨h, cl, Request.createRes "Journal Entry" body⟩,
                              (create_journal_entry h cl body s).1) =
                            some (formatDocName "Journal Entry" cl.year
                              (counterOf s "Journal Entry"))
                          rw [he]
                          rfl
                        · show counterOf (create_journal_entry h cl body s).2
                              "Journal Entry" =
                            counterOf s "Journal Entry" + 1
                          rw [he, counterOf_save_document, counterOf_set,
                            if_pos rfl]
                      · left
                        refine ⟨?_, ?_⟩
                        · show createdName1 d
                            (⟨h, cl, Request.createRes "Journal Entry" body⟩,
                              (create_journal_entry h cl body s).1) = none
                          rw [he]
                          simp [createdName1, hdd]
                        · show counterOf (create_journal_entry h cl body s).2
                              d = counterOf s d
                          rw [he, counterOf_save_document, counterOf_set,
                            if_neg hdd]
        · by_cases h3 : dt = "Purchase Invoice"
          · subst h3
            cases hau : authenticate h
            · have he := create_purchase_invoice_unauth h cl body s hau
              refine ⟨?_, ?_⟩
              · show StateInv (create_purchase_invoice h cl body s).2
                rw [he]; exact hinv
              · intro d _
                left
                refine ⟨?_, ?_⟩
                · show createdName1 d
                    (⟨h, cl, Request.createRes "Purchase Invoice" body⟩,
                      (create_purchase_invoice h cl body s).1) = none
                  rw [he]
                  rfl
                · show counterOf (create_purchase_invoice h cl body s).2 d =
                    counterOf s d
                  rw [he]
            · cases hsu : truthy (docGet body "supplier")
              · have he := create_purchase_invoice_no_supplier h cl body s hau
                  hsu
                refine ⟨?_, ?_⟩
                · show StateInv (create_purchase_invoice h cl body s).2
                  rw [he]; exact hinv
                · intro d _
                  left
                  refine ⟨?_, ?_⟩
                  · show createdName1 d
                      (⟨h, cl, Request.createRes "Purchase Invoice" body⟩,
                        (create_purchase_invoice h cl body s).1) = none
                    rw [he]
                    rfl
                  · show counterOf (create_purchase_invoice h cl body s).2 d =
                      counterOf s d
                    rw [he]
              · cases hit : truthy (docGet body "items")
                · have he := create_purchase_invoice_no_items h cl body s hau
                    hsu (Or.inl hit)
                  refine ⟨?_, ?_⟩
                  · show StateInv (create_purchase_invoice h cl body s).2
                    rw [he]; exact hinv
                  · intro d _
                    left
                    refine ⟨?_, ?_⟩
                    · show createdName1 d
                        (⟨h, cl, Request.createRes "Purchase Invoice" body⟩,
                          (create_purchase_invoice h cl body s).1) = none
                      rw [he]
                      rfl
                    · show counterOf (create_purchase_invoice h cl body s).2
                          d = counterOf s d
                      rw [he]
                · by_cases hlen : jsonLen (docGetD body "items" Json.null) = 0
                  · have he := create_purchase_invoice_no_items h cl body s hau
                      hsu (Or.inr hlen)
                    refine ⟨?_, ?_⟩
                    · show StateInv (create_purchase_invoice h cl body s).2
                      rw [he]; exact hinv
                    · intro d _
                      left
                      refine ⟨?_, ?_⟩
                      · show createdName1 d
                          (⟨h, cl, Request.createRes "Purchase Invoice" body⟩,
                            (create_purchase_invoice h cl body s).1) = none
                        rw [he]
                        rfl
                      · show counterOf
                            (create_purchase_invoice h cl body s).2 d =
                          counterOf s d
                        rw [he]
                  · have he := create_purchase_invoice_success h cl body s hau
                      hsu hit hlen
                    refine ⟨?_, ?_⟩
                    · show StateInv (create_purchase_invoice h cl body s).2
                      rw [he]
                      exact createSuccess_inv "Purchase Invoice"
                        (by simp [supportedDoctypes]) cl.year _ s hinv
                    · intro d _
                      by_cases hdd : "Purchase Invoice" = d
                      · subst hdd
                        right
                        refine ⟨?_, ?_⟩
                        · show createdName1 "Purchase Invoice"
                            (⟨h, cl, Request.createRes "Purchase Invoice"
                                body⟩,
                              (create_purchase_invoice h cl body s).1) =
                            some (formatDocName "Purchase Invoice" cl.year
                              (counterOf s "Purchase Invoice"))
                          rw [he]
                          rfl
                        · show counterOf
                              (create_purchase_invoice h cl body s).2
                              "Purchase Invoice" =
                            counterOf s "Purchase Invoice" + 1
                          rw [he, counterOf_save_document, counterOf_set,
                            if_pos rfl]
                      · left
                        refine ⟨?_, ?_⟩
                        · show createdName1 d
                            (⟨h, cl, Request.createRes "Purchase Invoice"
                                body⟩,
                              (create_purchase_invoice h cl body s).1) = none
                          rw [he]
                          simp [createdName1, hdd]
                        · show counterOf
                              (create_purchase_invoice h cl body s).2 d =
                            counterOf s d
                          rw [he, counterOf_save_document, counterOf_set,
                            if_neg hdd]
          · by_cases h4 : dt = "Payment Entry"
            · subst h4
              cases hau : authenticate h
              · have he := create_payment_entry_unauth h cl body s hau
                refine ⟨?_, ?_⟩
                · show StateInv (create_payment_entry h cl body s).2
                  rw [he]; exact hinv
                · intro d _
                  left
                  refine ⟨?_, ?_⟩
                  · show createdName1 d
                      (⟨h, cl, Request.createRes "Payment Entry" body⟩,
                        (create_payment_entry h cl body s).1) = none
                    rw [he]
                    rfl
                  · show counterOf (create_payment_entry h cl body s).2 d =
                      counterOf s d
                    rw [he]
              · cases hty : truthy (docGet body "payment_type")
                · have he := create_payment_entry_no_type h cl body s hau hty
                  refine ⟨?_, ?_⟩
                  · show StateInv (create_payment_entry h cl body s).2
                    rw [he]; exact hinv
                  · intro d _
                    left
                    refine ⟨?_, ?_⟩
                    · show createdName1 d
                        (⟨h, cl, Request.createRes "Payment Entry" body⟩,
                          (create_payment_entry h cl body s).1) = none
                      rw [he]
                      rfl
                    · show counterOf (create_payment_entry h cl body s).2 d =
                        counterOf s d
                      rw [he]
                · cases hpt : truthy (docGet body "party_type")
                  · have he := create_payment_entry_no_party h cl body s hau
                      hty (Or.inl hpt)
                    refine ⟨?_, ?_⟩
                    · show StateInv (create_payment_entry h cl body s).2
                      rw [he]; exact hinv
                    · intro d _
                      left
                      refine ⟨?_, ?_⟩
                      · show createdName1 d
                          (⟨h, cl, Request.createRes "Payment Entry" body⟩,
                            (create_payment_entry h cl body s).1) = none
                        rw [he]
                        rfl
                      · show counterOf (create_payment_entry h cl body s).2
                            d = counterOf s d
                        rw [he]
                  · cases hpa : truthy (docGet body "party")
                    · have he := create_payment_entry_no_party h cl body s hau
                        hty (Or.inr hpa)
                      refine ⟨?_, ?_⟩
                      · show StateInv (create_payment_entry h cl body s).2
                        rw [he]; exact hinv
                      · intro d _
                        left
                        refine ⟨?_, ?_⟩
                        · show createdName1 d
                            (⟨h, cl, Request.createRes "Payment Entry" body⟩,
                              (create_payment_entry h cl body s).1) = none
                          rw [he]
                          rfl
                        · show counterOf (create_payment_entry h cl body s).2
                              d = counterOf s d
                          rw [he]
                    · have he := create_payment_entry_success h cl body s hau
                        hty hpt hpa
                      refine ⟨?_, ?_⟩
                      · show StateInv (create_payment_entry h cl body s).2
                        rw [he]
                        exact createSuccess_inv "Payment Entry"
                          (by simp [supportedDoctypes]) cl.year _ s hinv
                      · intro d _
                        by_cases hdd : "Payment Entry" = d
                        · subst hdd
                          right
                          refine ⟨?_, ?_⟩
                          · show createdName1 "Payment Entry"
                              (⟨h, cl, Request.createRes "Payment Entry"
                                  body⟩,
                                (create_payment_entry h cl body s).1) =
                              some (formatDocName "Payment Entry" cl.year
                                (counterOf s "Payment Entry"))
                            rw [he]
                            rfl
                          · show counterOf
                                (create_payment_entry h cl body s).2
                                "Payment Entry" =
                              counterOf s "Payment Entry" + 1
                            rw [he, counterOf_save_document, counterOf_set,
                              if_pos rfl]
                        · left
                          refine ⟨?_, ?_⟩
                          · show createdName1 d
                              (⟨h, cl, Request.createRes "Payment Entry"
                                  body⟩,
                                (create_payment_entry h cl body s).1) = none
                            rw [he]
                            simp [createdName1, hdd]
                          · show counterOf
                                (create_payment_entry h cl body s).2 d =
                              counterOf s d
                            rw [he, counterOf_save_document, counterOf_set,
                              if_neg hdd]
            · have he : stepRequest h cl (Request.createRes dt body) s =
                  (⟨405, RespBody.err "Method Not Allowed"
                    "MethodNotAllowed"⟩, s) := by
                simp [stepRequest, h1, h2, h3, h4]
              rw [he]
              exact ⟨hinv, fun d _ => Or.inl ⟨rfl, rfl⟩⟩

/-- Names handed out in order, one per successive counter value starting
at `c`. -/
def NamesFrom (d : String) : Nat → List String → Prop
  | _, [] => True
  | c, nm :: rest => (∃ y, nm = formatDocName d y c) ∧ NamesFrom d (c + 1) rest

theorem NamesFrom_mem (d : String) :
    ∀ (names : List String) (c : Nat), NamesFrom d c names →
      ∀ nm ∈ names, ∃ y c', c ≤ c' ∧ nm = formatDocName d y c' := by
  intro names
  induction names with
  | nil => intro c _ nm hm; simp at hm
  | cons nm0 rest ih =>
      intro c hnf nm hm
      obtain ⟨⟨y, he⟩, hrest⟩ := hnf
      rcases List.mem_cons.mp hm with hm | hm
      · exact ⟨y, c, le_refl c, hm ▸ he⟩
      · obtain ⟨y', c', hle, he'⟩ := ih (c + 1) hrest nm hm
        exact ⟨y', c', by omega, he'⟩

theorem NamesFrom_nodup (d : String) (hd : d ∈ supportedDoctypes) :
    ∀ (names : List String) (c : Nat), NamesFrom d c names →
      names.Nodup := by
  intro names
  induction names with
  | nil => intro c _; exact List.nodup_nil
  | cons nm0 rest ih =>
      intro c hnf
      obtain ⟨⟨y, he⟩, hrest⟩ := hnf
      rw [List.nodup_cons]
      refine ⟨?_, ih (c + 1) hrest⟩
      intro hmem
      obtain ⟨y', c', hle, he'⟩ := NamesFrom_mem d rest (c + 1) hrest nm0 hmem
      have : c = c' := formatDocName_counter_inj d hd (he ▸ he')
      omega

theorem formatDocName_customer (y c : Nat) :
    formatDocName "Customer" y c = "CUST-" ++ fmt05 c := by
  simp [formatDocName]

theorem NamesFrom_customer :
    ∀ (names : List String) (c : Nat), NamesFrom "Customer" c names →
      names = (List.range' c names.length).map
        (fun k => "CUST-" ++ fmt05 k) := by
  intro names
  induction names with
  | nil => intro c _; rfl
  | cons nm0 rest ih =>
      intro c hnf
      obtain ⟨⟨y, he⟩, hrest⟩ := hnf
      have hr := ih (c + 1) hrest
      rw [he, formatDocName_customer]
      show ("CUST-" ++ fmt05 c) :: rest =
        (List.range' c (("CUST-" ++ fmt05 c) :: rest).length).map
          (fun k => "CUST-" ++ fmt05 k)
      rw [List.length_cons, List.range'_succ, List.map_cons, ← hr]

/-- Serving any request sequence preserves the invariant; per supported
doctype the counter advances by exactly the number of names handed out,
and those names carry the successive counter values starting at the
initial counter. -/
theorem runRequests_spec :
    ∀ (calls : List Call) (s : MemState), StateInv s →
      StateInv (runRequests calls s).2 ∧
      ∀ d ∈ supportedDoctypes,
        counterOf (runRequests calls s).2 d =
          counterOf s d + (createdNames d (runRequests calls s).1).length ∧
        NamesFrom d (counterOf s d)
          (createdNames d (runRequests calls s).1) := by
  intro calls
  induction calls with
  | nil =>
      intro s hinv
      refine ⟨hinv, ?_⟩
      intro d _
      refine ⟨?_, trivial⟩
      rfl
  | cons c rest ih =>
      intro s hinv
      obtain ⟨hinv1, hstep⟩ := stepRequest_spec c s hinv
      obtain ⟨hinvf, hrest⟩ :=
        ih (stepRequest c.authHeader c.clock c.req s).2 hinv1
      refine ⟨hinvf, ?_⟩
      intro d hd
      obtain ⟨hcnt, hnames⟩ := hrest d hd
      have houts : createdNames d (runRequests (c :: rest) s).1 =
          match createdName1 d
              (c, (stepRequest c.authHeader c.clock c.req s).1) with
          | none => createdNames d
              (runRequests rest (stepRequest c.authHeader c.clock c.req s).2).1
          | some nm => nm :: createdNames d
              (runRequests rest
                (stepRequest c.authHeader c.clock c.req s).2).1 := by
        show List.filterMap (createdName1 d)
            ((c, (stepRequest c.authHeader c.clock c.req s).1) ::
              (runRequests rest
                (stepRequest c.authHeader c.clock c.req s).2).1) = _
        rw [List.filterMap_cons]
        cases createdName1 d
            (c, (stepRequest c.authHeader c.clock c.req s).1) <;> rfl
      rcases hstep d hd with ⟨hn, hc⟩ | ⟨hn, hc⟩
      · rw [houts, hn]
        rw [hc] at hcnt hnames
        exact ⟨hcnt, hnames⟩
      · rw [houts, hn]
        rw [hc] at hcnt hnames
        constructor
        · show counterOf (runRequests (c :: rest) s).2 d = _
          rw [show (runRequests (c :: rest) s).2 =
            (runRequests rest
              (stepRequest c.authHeader c.clock c.req s).2).2 from rfl]
          rw [hcnt]
          simp [List.length_cons]
          omega
        · exact ⟨⟨c.clock.year, rfl⟩, hnames⟩

/-! ## The claims -/

/-- C1: for every supported doctype the naming service never returns the
same identifier twice across any sequence of served requests (creates,
updates, deletes, reads, in any order, under any credentials and any
request clocks): the per-doctype counter starts at 1 and ends at
1 + the number of names handed out (so it advances by exactly 1 per
successful create and is never reused, deletes included), and the
successful Customer creates receive exactly the zero-padded names
CUST-00001, CUST-00002, … in order. -/
theorem C1_naming_unique (calls : List Call) :
    (∀ d ∈ supportedDoctypes,
      counterOf (runRequests calls initState).2 d =
        1 + (createdNames d (runRequests calls initState).1).length ∧
      (createdNames d (runRequests calls initState).1).Nodup) ∧
    createdNames "Customer" (runRequests calls initState).1 =
      (List.range' 1
        (createdNames "Customer"
          (runRequests calls initState).1).length).map
        (fun k => "CUST-" ++ fmt05 k) := by
  obtain ⟨_, hmain⟩ := runRequests_spec calls initState StateInv_init
  constructor
  · intro d hd
    obtain ⟨hcnt, hnames⟩ := hmain d hd
    rw [counterOf_initState] at hcnt hnames
    exact ⟨by omega, NamesFrom_nodup d hd _ 1 hnames⟩
  · have hd : "Customer" ∈ supportedDoctypes := by
      simp [supportedDoctypes]
    obtain ⟨_, hnames⟩ := hmain "Customer" hd
    rw [counterOf_initState] at hnames
    exact NamesFrom_customer _ 1 hnames

/-- C1 witness: the theorem applied to a concrete two-create run; the
`d ∈ supportedDoctypes` hypothesis is discharged at `"Customer"`. -/
theorem C1_naming_unique_witness :
    (createdNames "Customer"
      (runRequests
        [⟨"token test_api_key:test_api_secret",
            ⟨2026, "2026-01-01T00:00:00", "2026-01-01"⟩,
            Request.createRes "Customer" [("customer_name", Json.str "A")]⟩,
         ⟨"token test_api_key:test_api_secret",
            ⟨2026, "2026-01-01T00:00:01", "2026-01-01"⟩,
            Request.createRes "Customer" [("customer_name", Json.str "B")]⟩]
        initState).1).Nodup :=
  ((C1_naming_unique _).1 "Customer" (by decide)).2

/-- Projection distinguishing a found `get` observation. -/
def gotSome : StoreObs → Bool
  | StoreObs.got (some _) => true
  | _ => false

/-- C4 counterexample: the claim fails as stated.  Save a record named
`"x"` under doctype `Customer`, then save a record with the same name
under `Journal Entry`, then `get("Journal Entry", "x")`: the in-memory
backend finds the second record, while the SQL backend — whose save
looks rows up by globally-unique `name` alone and leaves the original
`doctype` column in place — answers not-found.  The two backends are
distinguishable through the save/get contract. -/
theorem C4_counterexample :
    memTrace
      [StoreOp.save "Customer" "x" [("v", Json.num 1)],
       StoreOp.save "Journal Entry" "x" [("v", Json.num 2)],
       StoreOp.getOp "Journal Entry" "x"] ≠
    sqlTrace
      [StoreOp.save "Customer" "x" [("v", Json.num 1)],
       StoreOp.save "Journal Entry" "x" [("v", Json.num 2)],
       StoreOp.getOp "Journal Entry" "x"] := by
  intro heq
  have h2 := congrArg (List.map gotSome) heq
  have hm : (memTrace
      [StoreOp.save "Customer" "x" [("v", Json.num 1)],
       StoreOp.save "Journal Entry" "x" [("v", Json.num 2)],
       StoreOp.getOp "Journal Entry" "x"]).map gotSome =
      [false, false, true] := rfl
  have hs : (sqlTrace
      [StoreOp.save "Customer" "x" [("v", Json.num 1)],
       StoreOp.save "Journal Entry" "x" [("v", Json.num 2)],
       StoreOp.getOp "Journal Entry" "x"]).map gotSome =
      [false, false, false] := rfl
  rw [hm, hs] at h2
  simp at h2

/-- C4 amended: the two store backends produce identical observation
traces (same pages in insertion order, same not-found signalling, same
delete results) for every operation sequence in which each document name
is saved under a single doctype — which is the case for every sequence
the API itself produces, since generated names embed their doctype's
template. -/
theorem C4_amended_backend_equiv (ops : List StoreOp)
    (hfun : PairsFunctional (savePairs ops)) :
    memTrace ops = sqlTrace ops := by
  obtain ⟨h1, _, _⟩ := storeRun_refine (savePairs ops) hfun ops initState []
    StoreRel_init (fun r hr => absurd hr (List.not_mem_nil r))
    (fun _ hp => hp)
  exact h1

/-- C4 witness: the amended theorem applied to a concrete sequence, the
single-doctype-per-name hypothesis discharged by computation. -/
theorem C4_amended_backend_equiv_witness :
    memTrace
      [StoreOp.save "Customer" "x" [("v", Json.num 1)],
       StoreOp.getOp "Customer" "x",
       StoreOp.deleteOp "Customer" "x",
       StoreOp.getOp "Customer" "x"] =
    sqlTrace
      [StoreOp.save "Customer" "x" [("v", Json.num 1)],
       StoreOp.getOp "Customer" "x",
       StoreOp.deleteOp "Customer" "x",
       StoreOp.getOp "Customer" "x"] :=
  C4_amended_backend_equiv _ (by unfold PairsFunctional; decide)

/-- C8: every create endpoint checks its record type's rules in the
listed order; the first failing rule short-circuits to a 400
`ValidationError` response naming that rule, with the state — documents
and counters alike — left untouched, so nothing is stored and no name is
consumed.  In particular a Customer without `customer_name` and a
Payment Entry missing `party_type` or `party` give 400.  (The
company-missing branch for a Journal Entry applies whatever the state
of the later `accounts` rules, which captures the ordering.) -/
theorem C8_validation_order :
    (∀ (h : String) (cl : Clock) (data : Doc) (s : MemState),
      authenticate h = true →
      truthy (docGet data "customer_name") = false →
      create_customer h cl data s =
        (validationResp "Mandatory field customer_name missing", s)) ∧
    (∀ (h : String) (cl : Clock) (data : Doc) (s : MemState),
      authenticate h = true →
      truthy (docGet data "company") = false →
      create_journal_entry h cl data s =
        (validationResp "Mandatory field company missing", s)) ∧
    (∀ (h : String) (cl : Clock) (data : Doc) (s : MemState),
      authenticate h = true →
      truthy (docGet data "company") = true →
      (truthy (docGet data "accounts") = false ∨
        jsonLen (docGetD data "accounts" Json.null) < 2) →
      create_journal_entry h cl data s =
        (validationResp "At least 2 accounts required for a Journal Entry",
          s)) ∧
    (∀ (h : String) (cl : Clock) (data : Doc) (s : MemState),
      authenticate h = true →
      truthy (docGet data "supplier") = false →
      create_purchase_invoice h cl data s =
        (validationResp "Mandatory field supplier missing", s)) ∧
    (∀ (h : String) (cl : Clock) (data : Doc) (s : MemState),
      authenticate h = true →
      truthy (docGet data "supplier") = true →
      (truthy (docGet data "items") = false ∨
        jsonLen (docGetD data "items" Json.null) = 0) →
      create_purchase_invoice h cl data s =
        (validationResp "At least 1 item required for Purchase Invoice",
          s)) ∧
    (∀ (h : String) (cl : Clock) (data : Doc) (s : MemState),
      authenticate h = true →
      truthy (docGet data "payment_type") = false →
      create_payment_entry h cl data s =
        (validationResp "Mandatory field payment_type missing", s)) ∧
    (∀ (h : String) (cl : Clock) (data : Doc) (s : MemState),
      authenticate h = true →
      truthy (docGet data "payment_type") = true →
      (truthy (docGet data "party_type") = false ∨
        truthy (docGet data "party") = false) →
      create_payment_entry h cl data s =
        (validationResp "Mandatory fields party_type and party missing",
          s)) :=
  ⟨create_customer_missing, create_journal_entry_no_company,
    create_journal_entry_bad_accounts, create_purchase_invoice_no_supplier,
    create_purchase_invoice_no_items, create_payment_entry_no_type,
    create_payment_entry_no_party⟩

/-- C8 witness: a Customer create with an empty body is rejected with the
customer_name rule and an unchanged state. -/
theorem C8_validation_order_witness :
    create_customer "token test_api_key:test_api_secret"
      ⟨2026, "2026-01-01T00:00:00", "2026-01-01"⟩ [] initState =
      (validationResp "Mandatory field customer_name missing", initState) :=
  C8_validation_order.1 "token test_api_key:test_api_secret"
    ⟨2026, "2026-01-01T00:00:00", "2026-01-01"⟩ [] initState rfl rfl

/-- C10: an authenticated list request for a doctype that is not one of
the four supported record types answers 200 with an empty data list (not
404) after any request history, because unsupported doctypes can never
acquire records; the SQL-backed `list_documents` likewise returns the
empty page on a table holding no row of that doctype. -/
theorem C10_unknown_doctype_lists_empty (calls : List Call) (h d : String)
    (st len : Nat) (hau : authenticate h = true)
    (hd : d ∉ supportedDoctypes) :
    get_resources h d st len (runRequests calls initState).2 =
      (⟨200, RespBody.dataList []⟩, (runRequests calls initState).2) ∧
    ∀ rows : List SqlRow, (∀ r ∈ rows, r.doctype ≠ d) →
      sqlList d st len rows = [] := by
  constructor
  · obtain ⟨hinv, _⟩ := runRequests_spec calls initState StateInv_init
    have hempty : storeOf (runRequests calls initState).2 d = [] :=
      hinv.2.2 d hd
    rw [get_resources_auth _ _ _ _ _ hau]
    have hlist : list_documents d st len (runRequests calls initState).2 =
        [] := by
      unfold list_documents
      rw [hempty]
      simp [Al.values]
    rw [hlist]
  · intro rows hrows
    unfold sqlList
    have hfil : rows.filter (fun r => r.doctype = d) = [] := by
      rw [List.filter_eq_nil]
      intro r hr
      simpa using hrows r hr
    rw [hfil]
    simp

/-- C10 witness: listing doctype `"Widget"` on the untouched server and
on an empty table both give the empty page. -/
theorem C10_unknown_doctype_lists_empty_witness :
    get_resources "token demo_key:demo_secret" "Widget" 0 20
      (runRequests [] initState).2 =
      (⟨200, RespBody.dataList []⟩, (runRequests [] initState).2) ∧
    sqlList "Widget" 0 20 [] = [] := by
  obtain ⟨h1, h2⟩ := C10_unknown_doctype_lists_empty []
    "token demo_key:demo_secret" "Widget" 0 20 rfl (by decide)
  exact ⟨h1, h2 [] (fun r hr => absurd hr (List.not_mem_nil r))⟩

/-! ## Authentication characterization -/

theorem splitColon_ne_nil (l : List Char) : splitColon l ≠ [] := by
  induction l with
  | nil => simp [splitColon]
  | cons c rest ih =>
      by_cases hc : c = ':'
      · simp [splitColon, hc]
      · cases hr : splitColon rest with
        | nil => simp [splitColon, hc, hr]
        | cons h0 t => simp [splitColon, hc, hr]

theorem splitColon_single (l : List Char) :
    ∀ a : List Char, splitColon l = [a] → l = a := by
  induction l with
  | nil =>
      intro a h
      simp [splitColon] at h
      rw [← h]
  | cons c rest ih =>
      intro a h
      by_cases hc : c = ':'
      · simp [splitColon, hc] at h
        exact absurd h.2 (splitColon_ne_nil rest)
      · cases hr : splitColon rest with
        | nil => exact absurd hr (splitColon_ne_nil rest)
        | cons h0 t =>
            simp [splitColon, hc, hr] at h
            obtain ⟨ha, ht⟩ := h
            subst ht
            rw [← ha, ih h0 hr]

theorem splitColon_pair (l : List Char) :
    ∀ a b : List Char, splitColon l = [a, b] → l = a ++ ':' :: b := by
  induction l with
  | nil =>
      intro a b h
      simp [splitColon] at h
  | cons c rest ih =>
      intro a b h
      by_cases hc : c = ':'
      · simp [splitColon, hc] at h
        obtain ⟨ha, hrest⟩ := h
        subst ha
        subst hc
        rw [splitColon_single rest b hrest]
        rfl
      · cases hr : splitColon rest with
        | nil => exact absurd hr (splitColon_ne_nil rest)
        | cons h0 t =>
            simp [splitColon, hc, hr] at h
            obtain ⟨ha, ht⟩ := h
            have hrest : splitColon rest = [h0, b] := by rw [hr, ht]
            rw [← ha, ih h0 b hrest]
            rfl

/-- `authenticate` succeeds exactly on headers of the shape
`token <key>:<secret>` where the key is in the static table with exactly
that secret. -/
theorem authenticate_iff (hdr : String) :
    authenticate hdr = true ↔
      ∃ k sec, Al.get VALID_API_KEYS k = some sec ∧
        hdr = "token " ++ k ++ ":" ++ sec := by
  constructor
  · intro hau
    by_cases htake : hdr.data.take 6 = "token ".data
    · unfold authenticate at hau
      rw [if_pos htake] at hau
      cases hsp : splitColon (hdr.data.drop 6) with
      | nil => exact absurd hsp (splitColon_ne_nil _)
      | cons p1 ptail =>
          cases ptail with
          | nil =>
              rw [hsp] at hau
              exact Bool.noConfusion hau
          | cons p2 ptail2 =>
              cases ptail2 with
              | nil =>
                  rw [hsp] at hau
                  have hget : Al.get VALID_API_KEYS (String.mk p1) =
                      some (String.mk p2) := of_decide_eq_true hau
                  refine ⟨String.mk p1, String.mk p2, hget, ?_⟩
                  have hdrop : hdr.data.drop 6 = p1 ++ ':' :: p2 :=
                    splitColon_pair _ p1 p2 hsp
                  apply String.ext
                  show hdr.data =
                    ("token " ++ String.mk p1 ++ ":" ++ String.mk p2).data
                  rw [String.data_append, String.data_append,
                    String.data_append]
                  rw [← List.take_append_drop 6 hdr.data, htake, hdrop]
                  simp
              | cons p3 ptail3 =>
                  rw [hsp] at hau
                  exact Bool.noConfusion hau
    · unfold authenticate at hau
      rw [if_neg htake] at hau
      exact Bool.noConfusion hau
  · rintro ⟨k, sec, hget, he⟩
    have hcases : (k = "test_api_key" ∧ sec = "test_api_secret") ∨
        (k = "demo_key" ∧ sec = "demo_secret") := by
      simp only [VALID_API_KEYS, Al.get] at hget
      by_cases h1 : "test_api_key" = k
      · rw [if_pos h1] at hget
        exact Or.inl ⟨h1.symm, (Option.some.inj hget).symm⟩
      · rw [if_neg h1] at hget
        by_cases h2 : "demo_key" = k
        · rw [if_pos h2] at hget
          exact Or.inr ⟨h2.symm, (Option.some.inj hget).symm⟩
        · rw [if_neg h2] at hget
          exact Option.noConfusion hget
    rcases hcases with ⟨hk, hs⟩ | ⟨hk, hs⟩ <;> subst hk <;> subst hs <;>
      subst he <;> rfl

/-- The requests that match a route of the server (a POST exists only
for the four supported doctypes; every other request shape always
routes). -/
def ValidRoute : Request → Prop
  | Request.createRes d _ => d ∈ supportedDoctypes
  | _ => True

/-- Every routed request with failing authentication is answered 401
`AuthenticationError` with the state untouched. -/
theorem stepRequest_unauth (hdr : String) (cl : Clock) (req : Request)
    (s : MemState) (hvr : ValidRoute req)
    (hau : authenticate hdr = false) :
    stepRequest hdr cl req s = (authFailedResp, s) := by
  cases req with
  | loggedUser => exact get_logged_user_unauth hdr s hau
  | listRes d st len => exact get_resources_unauth hdr d st len s hau
  | getRes d n => exact get_resource_unauth hdr d n s hau
  | createRes dt body =>
      have hvr' : dt ∈ supportedDoctypes := hvr
      fin_cases hvr'
      · exact create_customer_unauth hdr cl body s hau
      · exact create_journal_entry_unauth hdr cl body s hau
      · exact create_purchase_invoice_unauth hdr cl body s hau
      · exact create_payment_entry_unauth hdr cl body s hau
  | updateRes d n body => exact update_resource_unauth hdr d n cl body s hau
  | deleteRes d n => exact delete_resource_unauth hdr d n s hau

/-- C2: `authenticate` succeeds iff the Authorization header is exactly
`token ` followed by a key and a secret separated by `:` such that the
key is in the static table and its secret matches exactly — malformed
headers (missing prefix, wrong number of `:`-separated parts) fail
closed — and every request to a protected endpoint that fails the check
is answered 401 with `exc_type = AuthenticationError`, whatever the HTTP
method, with the store and counters untouched. -/
theorem C2_authentication :
    (∀ hdr : String, authenticate hdr = true ↔
      ∃ k sec, Al.get VALID_API_KEYS k = some sec ∧
        hdr = "token " ++ k ++ ":" ++ sec) ∧
    (∀ (hdr : String) (cl : Clock) (req : Request) (s : MemState),
      ValidRoute req → authenticate hdr = false →
      stepRequest hdr cl req s =
        (⟨401, RespBody.err "Authentication failed" "AuthenticationError"⟩,
          s)) :=
  ⟨authenticate_iff, fun hdr cl req s hvr hau =>
    stepRequest_unauth hdr cl req s hvr hau⟩

/-- C2 witness: the characterization accepts the demo credentials and a
bad header on a protected endpoint gets the 401 with untouched state. -/
theorem C2_authentication_witness :
    authenticate "token demo_key:demo_secret" = true ∧
    stepRequest "Basic xyz" ⟨2026, "t", "d"⟩ Request.loggedUser initState =
      (⟨401, RespBody.err "Authentication failed" "AuthenticationError"⟩,
        initState) :=
  ⟨(C2_authentication.1 "token demo_key:demo_secret").mpr
      ⟨"demo_key", "demo_secret", rfl, rfl⟩,
    C2_authentication.2 "Basic xyz" ⟨2026, "t", "d"⟩ Request.loggedUser
      initState trivial rfl⟩

/-! ## Remaining helper lemmas -/

theorem truthy_arr (l : List Json) (hne : l ≠ []) :
    truthy (some (Json.arr l)) = true := by
  cases l with
  | nil => exact absurd rfl hne
  | cons a t => rfl

theorem get_document_save (d n : String) (doc : Doc) (s : MemState) :
    get_document d n (save_document d n doc s) = some doc := by
  show Al.get (storeOf (save_document d n doc s) d) n = some doc
  rw [storeOf_save_document, if_pos rfl, Al.get_set, if_pos rfl]

theorem delete_document_fail (d n : String) (s : MemState)
    (hf : (delete_document d n s).1 = false) :
    (delete_document d n s).2 = s := by
  cases hget : Al.get s.documents d with
  | none =>
      show (delete_document d n s).2 = s
      unfold delete_document
      rw [hget]
  | some store =>
      by_cases hmem : n ∈ Al.keys store
      · exfalso
        unfold delete_document at hf
        rw [hget] at hf
        simp [hmem] at hf
      · unfold delete_document
        rw [hget]
        simp [hmem]

/-- C3: creating a Journal Entry (authenticated, company present,
`accounts` a JSON array with at least two entries) whose debit and
credit sums differ by more than 0.01 is rejected 400 `ValidationError`
with the message built from both computed totals and the state — hence
the store and the counters — untouched; when the sums are within 0.01
the creation answers 201, and the record it stores (retrievable under
the generated name) carries `total_debit` and `total_credit` equal to
the computed sums and `difference = 0`. -/
theorem C3_journal_balance (h : String) (cl : Clock) (data : Doc)
    (s : MemState) (accs : List Json)
    (hau : authenticate h = true)
    (hco : truthy (docGet data "company") = true)
    (hacc : docGet data "accounts" = some (Json.arr accs))
    (hlen : 2 ≤ accs.length) :
    (|sumAmounts "debit_in_account_currency" (Json.arr accs) -
        sumAmounts "credit_in_account_currency" (Json.arr accs)| > 1 / 100 →
      create_journal_entry h cl data s =
        (validationResp (balanceMsg
          (sumAmounts "debit_in_account_currency" (Json.arr accs))
          (sumAmounts "credit_in_account_currency" (Json.arr accs))), s)) ∧
    (¬(|sumAmounts "debit_in_account_currency" (Json.arr accs) -
        sumAmounts "credit_in_account_currency" (Json.arr accs)| > 1 / 100) →
      create_journal_entry h cl data s =
        (⟨201, RespBody.data (journalEntryDoc cl data
            (formatDocName "Journal Entry" cl.year
              (counterOf s "Journal Entry"))
            (sumAmounts "debit_in_account_currency" (Json.arr accs))
            (sumAmounts "credit_in_account_currency" (Json.arr accs)))⟩,
          save_document "Journal Entry"
            (formatDocName "Journal Entry" cl.year
              (counterOf s "Journal Entry"))
            (journalEntryDoc cl data
              (formatDocName "Journal Entry" cl.year
                (counterOf s "Journal Entry"))
              (sumAmounts "debit_in_account_currency" (Json.arr accs))
              (sumAmounts "credit_in_account_currency" (Json.arr accs)))
            { s with
                counters := Al.set s.counters "Journal Entry"
                  (counterOf s "Journal Entry" + 1) }) ∧
      docGet (journalEntryDoc cl data
          (formatDocName "Journal Entry" cl.year
            (counterOf s "Journal Entry"))
          (sumAmounts "debit_in_account_currency" (Json.arr accs))
          (sumAmounts "credit_in_account_currency" (Json.arr accs)))
          "total_debit" =
        some (Json.num
          (sumAmounts "debit_in_account_currency" (Json.arr accs))) ∧
      docGet (journalEntryDoc cl data
          (formatDocName "Journal Entry" cl.year
            (counterOf s "Journal Entry"))
          (sumAmounts "debit_in_account_currency" (Json.arr accs))
          (sumAmounts "credit_in_account_currency" (Json.arr accs)))
          "total_credit" =
        some (Json.num
          (sumAmounts "credit_in_account_currency" (Json.arr accs))) ∧
      docGet (journalEntryDoc cl data
          (formatDocName "Journal Entry" cl.year
            (counterOf s "Journal Entry"))
          (sumAmounts "debit_in_account_currency" (Json.arr accs))
          (sumAmounts "credit_in_account_currency" (Json.arr accs)))
          "difference" =
        some (Json.num 0) ∧
      get_document "Journal Entry"
          (formatDocName "Journal Entry" cl.year
            (counterOf s "Journal Entry"))
          (create_journal_entry h cl data s).2 =
        some (journalEntryDoc cl data
          (formatDocName "Journal Entry" cl.year
            (counterOf s "Journal Entry"))
          (sumAmounts "debit_in_account_currency" (Json.arr accs))
          (sumAmounts "credit_in_account_currency" (Json.arr accs)))) := by
  have hgetD : docGetD data "accounts" Json.null = Json.arr accs := by
    rw [docGetD, hacc]
    rfl
  have hne : accs ≠ [] := by
    intro he
    rw [he] at hlen
    simp at hlen
  have hat : truthy (docGet data "accounts") = true := by
    rw [hacc]
    exact truthy_arr accs hne
  have hlen2 : ¬jsonLen (docGetD data "accounts" Json.null) < 2 := by
    rw [hgetD]
    show ¬accs.length < 2
    omega
  constructor
  · intro hbal
    have he := create_journal_entry_unbalanced h cl data s hau hco hat hlen2
      (by rw [hgetD]; exact hbal)
    rw [hgetD] at he
    exact he
  · intro hbal
    have he := create_journal_entry_success h cl data s hau hco hat hlen2
      (by rw [hgetD]; exact hbal)
    rw [hgetD] at he
    refine ⟨he, rfl, rfl, rfl, ?_⟩
    rw [he]
    exact get_document_save _ _ _ _

/-- C3 witness: debit 1000 against credit 500 is rejected with both
totals in the message and no state change. -/
theorem C3_journal_balance_witness :
    create_journal_entry "token test_api_key:test_api_secret"
      ⟨2026, "t", "d"⟩
      [("company", Json.str "X"),
       ("accounts", Json.arr
         [Json.obj [("debit_in_account_currency", Json.num 1000)],
          Json.obj [("credit_in_account_currency", Json.num 500)]])]
      initState =
      (validationResp (balanceMsg 1000 500), initState) := by
  have h1 : sumAmounts "debit_in_account_currency"
      (Json.arr [Json.obj [("debit_in_account_currency", Json.num 1000)],
        Json.obj [("credit_in_account_currency", Json.num 500)]]) = 1000 := by
    simp [sumAmounts, accAmount, Al.get]
  have h2 : sumAmounts "credit_in_account_currency"
      (Json.arr [Json.obj [("debit_in_account_currency", Json.num 1000)],
        Json.obj [("credit_in_account_currency", Json.num 500)]]) = 500 := by
    simp [sumAmounts, accAmount, Al.get]
  have hmain := (C3_journal_balance "token test_api_key:test_api_secret"
    ⟨2026, "t", "d"⟩
    [("company", Json.str "X"),
     ("accounts", Json.arr
       [Json.obj [("debit_in_account_currency", Json.num 1000)],
        Json.obj [("credit_in_account_currency", Json.num 500)]])]
    initState
    [Json.obj [("debit_in_account_currency", Json.num 1000)],
     Json.obj [("credit_in_account_currency", Json.num 500)]]
    rfl rfl rfl (by decide)).1 (by rw [h1, h2]; norm_num)
  rw [h1, h2] at hmain
  exact hmain

/-- C5: for a stored record, PUT merges exactly the request-body fields
and refreshes `modified`: the handler answers 200 with the merged
record, stores it back under the same name, every key not in the body
(other than `modified` — `creation` and `customer_name` included) keeps
its stored value, every body key takes the body's value, and `modified`
becomes the request time.  No validation of any kind runs: the 200
equation holds for an arbitrary body. -/
theorem C5_update_frame (h d n : String) (cl : Clock) (body doc : Doc)
    (s : MemState) (hau : authenticate h = true)
    (hget : get_document d n s = some doc) (hne : doc.isEmpty = false)
    (hnd : (docKeys body).Nodup) :
    update_resource h d n cl body s =
      (⟨200, RespBody.data (docSet (docUpdate doc body) "modified"
          (Json.str cl.nowIso))⟩,
        save_document d n
          (docSet (docUpdate doc body) "modified" (Json.str cl.nowIso))
          s) ∧
    (∀ k, k ≠ "modified" → k ∉ docKeys body →
      docGet (docSet (docUpdate doc body) "modified" (Json.str cl.nowIso))
          k = docGet doc k) ∧
    (∀ k, k ≠ "modified" → k ∈ docKeys body →
      docGet (docSet (docUpdate doc body) "modified" (Json.str cl.nowIso))
          k = docGet body k) ∧
    docGet (docSet (docUpdate doc body) "modified" (Json.str cl.nowIso))
        "modified" = some (Json.str cl.nowIso) ∧
    get_document d n (update_resource h d n cl body s).2 =
      some (docSet (docUpdate doc body) "modified" (Json.str cl.nowIso)) := by
  have he := update_resource_found h d n cl body doc s hau hget hne
  refine ⟨he, ?_, ?_, ?_, ?_⟩
  · intro k hk hkb
    rw [docGet_docSet]
    rw [if_neg (fun hmm => hk hmm.symm)]
    exact docGet_docUpdate_not_mem doc body k hkb
  · intro k hk hkb
    rw [docGet_docSet]
    rw [if_neg (fun hmm => hk hmm.symm)]
    exact docGet_docUpdate_mem doc body k hnd hkb
  · rw [docGet_docSet, if_pos rfl]
  · rw [he]
    exact get_document_save _ _ _ _

/-- C5 witness: PUT of `email_id` onto a freshly created Customer leaves
`customer_name` unchanged (the theorem's frame part applied to the
concrete stored record). -/
theorem C5_update_frame_witness :
    docGet (docSet
        (docUpdate
          (customerDoc ⟨2026, "t0", "d0"⟩
            [("customer_name", Json.str "ACME")]
            (formatDocName "Customer" 2026 (counterOf initState "Customer")))
          [("email_id", Json.str "new@x.com")])
        "modified" (Json.str "t1")) "customer_name" =
      docGet (customerDoc ⟨2026, "t0", "d0"⟩
        [("customer_name", Json.str "ACME")]
        (formatDocName "Customer" 2026 (counterOf initState "Customer")))
        "customer_name" := by
  refine (C5_update_frame "token test_api_key:test_api_secret" "Customer"
    (formatDocName "Customer" 2026 (counterOf initState "Customer"))
    ⟨2026, "t1", "d1"⟩ [("email_id", Json.str "new@x.com")]
    (customerDoc ⟨2026, "t0", "d0"⟩ [("customer_name", Json.str "ACME")]
      (formatDocName "Customer" 2026 (counterOf initState "Customer")))
    (create_customer "token test_api_key:test_api_secret" ⟨2026, "t0", "d0"⟩
      [("customer_name", Json.str "ACME")] initState).2
    rfl ?_ rfl (by decide)).2.1 "customer_name" (by decide) (by decide)
  rw [create_customer_success "token test_api_key:test_api_secret"
    ⟨2026, "t0", "d0"⟩ [("customer_name", Json.str "ACME")] initState rfl rfl]
  exact get_document_save _ _ _ _

/-- C9: not-found signalling.  With valid credentials: a GET for a name
the store does not hold answers 404 `DoesNotExistError` (`notFoundResp`);
a GET on a doctype whose store is empty — any unknown doctype — likewise;
after a successful DELETE of a name, a GET of that name answers 404; a
DELETE of a nonexistent name fails, and a failed DELETE answers 404 with
the state untouched — never a success report. -/
theorem C9_not_found_signalling (h d n : String) (s : MemState)
    (hau : authenticate h = true)
    (hnd : (Al.keys (storeOf s d)).Nodup) :
    (get_document d n s = none →
      get_resource h d n s = (notFoundResp d n, s)) ∧
    (storeOf s d = [] → get_resource h d n s = (notFoundResp d n, s)) ∧
    ((delete_document d n s).1 = true →
      delete_resource h d n s =
        (⟨200, RespBody.message "ok"⟩, (delete_document d n s).2) ∧
      get_resource h d n (delete_document d n s).2 =
        (notFoundResp d n, (delete_document d n s).2)) ∧
    (get_document d n s = none → (delete_document d n s).1 = false) ∧
    ((delete_document d n s).1 = false →
      delete_resource h d n s = (notFoundResp d n, s)) := by
  obtain ⟨hd1, hd2⟩ := delete_document_spec d n s
  refine ⟨?_, ?_, ?_, ?_, ?_⟩
  · intro hget
    exact get_resource_notfound h d n s hau hget
  · intro hempty
    apply get_resource_notfound h d n s hau
    show Al.get (storeOf s d) n = none
    rw [hempty]
    rfl
  · intro hsucc
    refine ⟨delete_resource_found h d n s hau hsucc, ?_⟩
    apply get_resource_notfound h d n _ hau
    show Al.get (storeOf (delete_document d n s).2 d) n = none
    rw [hd2 d, if_pos rfl, Al.get_erase _ hnd, if_pos rfl]
  · intro hget
    rw [hd1]
    have : n ∉ Al.keys (storeOf s d) := (Al.get_eq_none_iff _ _).mp hget
    simp [this]
  · intro hfail
    rw [delete_resource_notfound h d n s hau hfail,
      delete_document_fail d n s hfail]

/-- C9 witness: GET and DELETE of a never-created Customer name on the
fresh server both answer 404. -/
theorem C9_not_found_signalling_witness :
    get_resource "token test_api_key:test_api_secret" "Customer"
      "CUST-00001" initState =
      (notFoundResp "Customer" "CUST-00001", initState) ∧
    delete_resource "token test_api_key:test_api_secret" "Customer"
      "CUST-00001" initState =
      (notFoundResp "Customer" "CUST-00001", initState) := by
  have hmain := C9_not_found_signalling "token test_api_key:test_api_secret"
    "Customer" "CUST-00001" initState rfl (by decide)
  exact ⟨hmain.1 rfl, hmain.2.2.2.2 rfl⟩

/-- C6 counterexample: the claim fails as stated.  Create a Customer,
then PUT a body containing a `name` field onto it: the update handler
merges the body's `name` into the stored record before saving it back,
so the stored record's `name` field becomes `"HACK"`, which differs from
the generated identifier the record is stored under.  (The storage key
itself does not move — that half survives in the amended claim.) -/
theorem C6_counterexample :
    ∃ r : Doc,
      get_document "Customer"
        (formatDocName "Customer" 2026 (counterOf initState "Customer"))
        (update_resource "token test_api_key:test_api_secret" "Customer"
          (formatDocName "Customer" 2026 (counterOf initState "Customer"))
          ⟨2026, "t1", "d1"⟩ [("name", Json.str "HACK")]
          (create_customer "token test_api_key:test_api_secret"
            ⟨2026, "t0", "d0"⟩ [("customer_name", Json.str "ACME")]
            initState).2).2 = some r ∧
      docGet r "name" = some (Json.str "HACK") ∧
      "HACK" ≠ formatDocName "Customer" 2026 (counterOf initState "Customer") := by
  have he1 := create_customer_success "token test_api_key:test_api_secret"
    ⟨2026, "t0", "d0"⟩ [("customer_name", Json.str "ACME")] initState rfl rfl
  have hget1 : get_document "Customer"
      (formatDocName "Customer" 2026 (counterOf initState "Customer"))
      (create_customer "token test_api_key:test_api_secret"
        ⟨2026, "t0", "d0"⟩ [("customer_name", Json.str "ACME")]
        initState).2 =
      some (customerDoc ⟨2026, "t0", "d0"⟩
        [("customer_name", Json.str "ACME")]
        (formatDocName "Customer" 2026 (counterOf initState "Customer"))) := by
    rw [he1]
    exact get_document_save _ _ _ _
  have he2 := update_resource_found "token test_api_key:test_api_secret"
    "Customer" (formatDocName "Customer" 2026 (counterOf initState "Customer"))
    ⟨2026, "t1", "d1"⟩ [("name", Json.str "HACK")]
    (customerDoc ⟨2026, "t0", "d0"⟩ [("customer_name", Json.str "ACME")]
      (formatDocName "Customer" 2026 (counterOf initState "Customer")))
    (create_customer "token test_api_key:test_api_secret"
      ⟨2026, "t0", "d0"⟩ [("customer_name", Json.str "ACME")]
      initState).2
    rfl hget1 rfl
  refine ⟨docSet (docUpdate
      (customerDoc ⟨2026, "t0", "d0"⟩ [("customer_name", Json.str "ACME")]
        (formatDocName "Customer" 2026 (counterOf initState "Customer")))
      [("name", Json.str "HACK")]) "modified" (Json.str "t1"),
    ?_, ?_, ?_⟩
  · rw [he2]
    exact get_document_save _ _ _ _
  · rfl
  · intro he
    have hlen := congrArg String.length he
    simp [formatDocName, fmt05, padZeros] at hlen
    have h4 : "HACK".length = 4 := rfl
    have h5 : "CUST-".length = 5 := rfl
    rw [h4, h5] at hlen
    omega

/-- C6 amended: `name` keys are unique within each doctype's store after
any request sequence, and the identifier a record is stored under is
immutable — an update (whatever its body, `name` field included) never
changes any doctype's key set; but the `name` field inside the stored
payload is overwritten when the update body carries one, as the
counterexample shows. -/
theorem C6_amended_name_unique (calls : List Call) :
    (∀ d ∈ supportedDoctypes,
      (Al.keys (storeOf (runRequests calls initState).2 d)).Nodup) ∧
    (∀ (h d n : String) (cl : Clock) (body : Doc) (s : MemState)
      (d' : String),
      Al.keys (storeOf (update_resource h d n cl body s).2 d') =
        Al.keys (storeOf s d')) := by
  constructor
  · intro d hd
    exact ((runRequests_spec calls initState StateInv_init).1).2.1 d hd
  · intro h d n cl body s d'
    cases hau : authenticate h
    · rw [update_resource_unauth h d n cl body s hau]
    · cases hget : get_document d n s with
      | none => rw [update_resource_notfound h d n cl body s hau hget]
      | some doc =>
          cases hemp : doc.isEmpty
          · rw [update_resource_found h d n cl body doc s hau hget hemp]
            show Al.keys (storeOf (save_document d n
              (docSet (docUpdate doc body) "modified"
                (Json.str cl.nowIso)) s) d') = _
            rw [storeOf_save_document]
            by_cases hd : d = d'
            · subst hd
              rw [if_pos rfl]
              exact Al.keys_set_of_mem _ _ _
                (Al.get_mem_of_eq_some _ _ _ hget)
            · rw [if_neg hd]
          · rw [update_resource_empty h d n cl body doc s hau hget hemp]

/-- C6 amended witness: the uniqueness half applied to the empty request
history at doctype Customer. -/
theorem C6_amended_name_unique_witness :
    (Al.keys (storeOf (runRequests [] initState).2 "Customer")).Nodup :=
  (C6_amended_name_unique []).1 "Customer" (by decide)

/-- C7: round-trip.  Whenever a create request is answered 201 with a
payload, an immediately following GET of the returned name (under any
valid credentials) answers 200 with exactly that payload, server-set
fields included. -/
theorem C7_roundtrip (hdr hdr2 : String) (cl : Clock) (dt : String)
    (body : Doc) (s : MemState) (doc : Doc) (s' : MemState)
    (hstep : stepRequest hdr cl (Request.createRes dt body) s =
      (⟨201, RespBody.data doc⟩, s'))
    (hau2 : authenticate hdr2 = true) :
    ∃ nm, docGet doc "name" = some (Json.str nm) ∧
      get_resource hdr2 dt nm s' = (⟨200, RespBody.data doc⟩, s') := by
  by_cases h1 : dt = "Customer"
  · subst h1
    have hstep' : create_customer hdr cl body s =
        (⟨201, RespBody.data doc⟩, s') := hstep
    cases hau : authenticate hdr
    · rw [create_customer_unauth hdr cl body s hau] at hstep'
      simp [authFailedResp] at hstep'
    · cases hval : truthy (docGet body "customer_name")
      · rw [create_customer_missing hdr cl body s hau hval] at hstep'
        simp [validationResp] at hstep'
      · rw [create_customer_success hdr cl body s hau hval] at hstep'
        simp only [Prod.mk.injEq, Response.mk.injEq, RespBody.data.injEq,
          true_and] at hstep'
        obtain ⟨hdoc, hs'⟩ := hstep'
        subst hdoc
        subst hs'
        refine ⟨formatDocName "Customer" cl.year (counterOf s "Customer"),
          rfl, ?_⟩
        exact get_resource_found hdr2 "Customer" _ _ _ hau2
          (get_document_save _ _ _ _) rfl
  · by_cases h2 : dt = "Journal Entry"
    · subst h2
      have hstep' : create_journal_entry hdr cl body s =
          (⟨201, RespBody.data doc⟩, s') := hstep
      cases hau : authenticate hdr
      · rw [create_journal_entry_unauth hdr cl body s hau] at hstep'
        simp [authFailedResp] at hstep'
      · cases hco : truthy (docGet body "company")
        · rw [create_journal_entry_no_company hdr cl body s hau hco]
            at hstep'
          simp [validationResp] at hstep'
        · cases hacc : truthy (docGet body "accounts")
          · rw [create_journal_entry_bad_accounts hdr cl body s hau hco
              (Or.inl hacc)] at hstep'
            simp [validationResp] at hstep'
          · by_cases hlen : jsonLen (docGetD body "accounts" Json.null) < 2
            · rw [create_journal_entry_bad_accounts hdr cl body s hau hco
                (Or.inr hlen)] at hstep'
              simp [validationResp] at hstep'
            · by_cases hbal : |sumAmounts "debit_in_account_currency"
                    (docGetD body "accounts" Json.null) -
                  sumAmounts "credit_in_account_currency"
                    (docGetD body "accounts" Json.null)| > 1 / 100
              · rw [create_journal_entry_unbalanced hdr cl body s hau hco
                  hacc hlen hbal] at hstep'
                simp [validationResp] at hstep'
              · rw [create_journal_entry_success hdr cl body s hau hco hacc
                  hlen hbal] at hstep'
                simp only [Prod.mk.injEq, Response.mk.injEq,
                  RespBody.data.injEq, true_and] at hstep'
                obtain ⟨hdoc, hs'⟩ := hstep'
                subst hdoc
                subst hs'
                refine ⟨formatDocName "Journal Entry" cl.year
                  (counterOf s "Journal Entry"), rfl, ?_⟩
                exact get_resource_found hdr2 "Journal Entry" _ _ _ hau2
                  (get_document_save _ _ _ _) rfl
    · by_cases h3 : dt = "Purchase Invoice"
      · subst h3
        have hstep' : create_purchase_invoice hdr cl body s =
            (⟨201, RespBody.data doc⟩, s') := hstep
        cases hau : authenticate hdr
        · rw [create_purchase_invoice_unauth hdr cl body s hau] at hstep'
          simp [authFailedResp] at hstep'
        · cases hsu : truthy (docGet body "supplier")
          · rw [create_purchase_invoice_no_supplier hdr cl body s hau hsu]
              at hstep'
            simp [validationResp] at hstep'
          · cases hit : truthy (docGet body "items")
            · rw [create_purchase_invoice_no_items hdr cl body s hau hsu
                (Or.inl hit)] at hstep'
              simp [validationResp] at hstep'
            · by_cases hlen : jsonLen (docGetD body "items" Json.null) = 0
              · rw [create_purchase_invoice_no_items hdr cl body s hau hsu
                  (Or.inr hlen)] at hstep'
                simp [validationResp] at hstep'
              · rw [create_purchase_invoice_success hdr cl body s hau hsu
                  hit hlen] at hstep'
                simp only [Prod.mk.injEq, Response.mk.injEq,
                  RespBody.data.injEq, true_and] at hstep'
                obtain ⟨hdoc, hs'⟩ := hstep'
                subst hdoc
                subst hs'
                refine ⟨formatDocName "Purchase Invoice" cl.year
                  (counterOf s "Purchase Invoice"), rfl, ?_⟩
                exact get_resource_found hdr2 "Purchase Invoice" _ _ _ hau2
                  (get_document_save _ _ _ _) rfl
      · by_cases h4 : dt = "Payment Entry"
        · subst h4
          have hstep' : create_payment_entry hdr cl body s =
              (⟨201, RespBody.data doc⟩, s') := hstep
          cases hau : authenticate hdr
          · rw [create_payment_entry_unauth hdr cl body s hau] at hstep'
            simp [authFailedResp] at hstep'
          · cases hty : truthy (docGet body "payment_type")
            · rw [create_payment_entry_no_type hdr cl body s hau hty]
                at hstep'
              simp [validationResp] at hstep'
            · cases hpt : truthy (docGet body "party_type")
              · rw [create_payment_entry_no_party hdr cl body s hau hty
                  (Or.inl hpt)] at hstep'
                simp [validationResp] at hstep'
              · cases hpa : truthy (docGet body "party")
                · rw [create_payment_entry_no_party hdr cl body s hau hty
                    (Or.inr hpa)] at hstep'
                  simp [validationResp] at hstep'
                · rw [create_payment_entry_success hdr cl body s hau hty
                    hpt hpa] at hstep'
                  simp only [Prod.mk.injEq, Response.mk.injEq,
                    RespBody.data.injEq, true_and] at hstep'
                  obtain ⟨hdoc, hs'⟩ := hstep'
                  subst hdoc
                  subst hs'
                  refine ⟨formatDocName "Payment Entry" cl.year
                    (counterOf s "Payment Entry"), rfl, ?_⟩
                  exact get_resource_found hdr2 "Payment Entry" _ _ _ hau2
                    (get_document_save _ _ _ _) rfl
        · have he : stepRequest hdr cl (Request.createRes dt body) s =
              (⟨405, RespBody.err "Method Not Allowed"
                "MethodNotAllowed"⟩, s) := by
            simp [stepRequest, h1, h2, h3, h4]
          rw [he] at hstep
          simp at hstep

/-- C7 witness: the round-trip applied to a concrete Customer creation. -/
theorem C7_roundtrip_witness :
    ∃ nm, docGet (customerDoc ⟨2026, "t0", "d0"⟩
        [("customer_name", Json.str "ACME")]
        (formatDocName "Customer" 2026 (counterOf initState "Customer")))
        "name" = some (Json.str nm) ∧
      get_resource "token demo_key:demo_secret" "Customer" nm
        (create_customer "token test_api_key:test_api_secret"
          ⟨2026, "t0", "d0"⟩ [("customer_name", Json.str "ACME")]
          initState).2 =
        (⟨200, RespBody.data (customerDoc ⟨2026, "t0", "d0"⟩
          [("customer_name", Json.str "ACME")]
          (formatDocName "Customer" 2026
            (counterOf initState "Customer")))⟩,
          (create_customer "token test_api_key:test_api_secret"
            ⟨2026, "t0", "d0"⟩ [("customer_name", Json.str "ACME")]
            initState).2) :=
  C7_roundtrip "token test_api_key:test_api_secret" "token demo_key:demo_secret"
    ⟨2026, "t0", "d0"⟩ "Customer" [("customer_name", Json.str "ACME")]
    initState
    (customerDoc ⟨2026, "t0", "d0"⟩ [("customer_name", Json.str "ACME")]
      (formatDocName "Customer" 2026 (counterOf initState "Customer")))
    (create_customer "token test_api_key:test_api_secret" ⟨2026, "t0", "d0"⟩
      [("customer_name", Json.str "ACME")] initState).2
    (by
      show create_customer "token test_api_key:test_api_secret"
        ⟨2026, "t0", "d0"⟩ [("customer_name", Json.str "ACME")] initState = _
      rw [create_customer_success "token test_api_key:test_api_secret"
        ⟨2026, "t0", "d0"⟩ [("customer_name", Json.str "ACME")] initState
        rfl rfl])
    rfl

end Erp
